import Mathlib

/-!
Verification development for the game-sitemap-monitor repository.

The definitions below are a shallow embedding of the core of the
repository: the URL utilities (`src/services/utils.ts`), the sitemap
locator (`discoverSitemap` in `src/server/scanner.ts`), the item store
(`appendNewItems` in `src/server/storage.ts`) and the diff engine
(`api.baseline` and `api.scan` in `src/server/scanner.ts`).

Effectful platform calls (HTTP via axios/fetch, the XML parser, the
file-system persistence layer, clocks and UUIDs) are modelled as an
explicit environment: every network or persistence call is represented
by its outcome (a response, or a thrown exception carrying a message),
and the state touched by the operations (site list, per-site seen-set,
item store) is passed explicitly.  JavaScript strings are modelled as
Lean strings; JS `trim` / truthiness / `split(/:(.+)/)` semantics are
reproduced explicitly where the source relies on them.  SHA-1 (used by
`hashUrl` via `crypto.subtle` and by `appendNewItems` via node crypto)
is implemented executably.
-/

set_option maxRecDepth 4000

namespace GSM

/-! ## JS string primitives -/

/-- Code points treated as whitespace by JavaScript `String.prototype.trim`
(ECMA WhiteSpace and LineTerminator sets). -/
def jsWs (c : Char) : Bool :=
  ([9, 10, 11, 12, 13, 32, 160, 5760, 8192, 8193, 8194, 8195, 8196, 8197,
    8198, 8199, 8200, 8201, 8202, 8232, 8233, 8239, 8287, 12288, 65279] :
    List Nat).contains c.toNat

def trimLeft (l : List Char) : List Char := l.dropWhile jsWs

def trimRight (l : List Char) : List Char := (l.reverse.dropWhile jsWs).reverse

/-- JS `s.trim()` on the underlying character list. -/
def jsTrim (l : List Char) : List Char := trimRight (trimLeft l)

def jsTrimStr (s : String) : String := ⟨jsTrim s.data⟩

/-- JS `s.toLowerCase()` (ASCII-faithful; the inputs the source lowercases
are `robots.txt` directives and URL slugs). -/
def lowerStr (s : String) : String := ⟨s.data.map Char.toLower⟩

/-- Character-list prefix test (JS `startsWith`). -/
def listPre : List Char → List Char → Bool
  | [], _ => true
  | _ :: _, [] => false
  | a :: as, b :: bs => if a = b then listPre as bs else false

def strHasPre (p s : String) : Bool := listPre p.data s.data

/-- Substring test (JS `includes`). -/
def hasSub (n : List Char) : List Char → Bool
  | [] => listPre n []
  | h :: t => listPre n (h :: t) || hasSub n t

/-- JS `s.split(sep)` for a one-character separator (always returns at
least one, possibly empty, field). -/
def splitOnChar (sep : Char) : List Char → List (List Char)
  | [] => [[]]
  | c :: rest =>
    match splitOnChar sep rest with
    | [] => [[]]
    | h :: t => if c = sep then [] :: h :: t else (c :: h) :: t

/-! ## `normalizeUrl` (src/services/utils.ts, lines 21–27) -/

/-- Everything before the first `'#'`; equals JS
`anchorIdx = indexOf('#'); if (anchorIdx !== -1) substring(0, anchorIdx)`. -/
def cutHash (l : List Char) : List Char := l.takeWhile (fun c => c ≠ '#')

/-- JS `if (clean.endsWith('/')) clean = clean.slice(0, -1)`. -/
def dropSlash (l : List Char) : List Char :=
  if l.getLast? = some '/' then l.dropLast else l

/-- Model of `normalizeUrl` from src/services/utils.ts: trim, cut at the first
`'#'`, drop one trailing `'/'`. -/
def normalizeUrl (s : String) : String := ⟨dropSlash (cutHash (jsTrim s.data))⟩

/-! ## `getProtocol` (src/services/utils.ts, lines 10–19) -/

/-- Consume a maximal run of ASCII digits, returning its length and the rest. -/
def spanDigits : List Char → Nat × List Char
  | [] => (0, [])
  | c :: t => if c.isDigit then ((spanDigits t).1 + 1, (spanDigits t).2) else (0, c :: t)

/-- Consume `[0-9]{1,3}` (maximal munch; a longer digit run cannot match). -/
def ipv4Group (l : List Char) : Option (List Char) :=
  let p := spanDigits l
  if 1 ≤ p.1 ∧ p.1 ≤ 3 then some p.2 else none

def dotGroup (l : List Char) : Option (List Char) :=
  match l with
  | '.' :: r => ipv4Group r
  | _ => none

/-- The tail `(?::[0-9]+)?$` of the IPv4 pattern. -/
def ipv4Tail (l : List Char) : Bool :=
  match l with
  | [] => true
  | ':' :: rest => decide (1 ≤ (spanDigits rest).1) && (spanDigits rest).2.isEmpty
  | _ => false

/-- The regex `^(?:[0-9]{1,3}\.){3}[0-9]{1,3}(?::[0-9]+)?$` from `getProtocol`.
Digit runs are delimited by non-digits, so maximal munch is equivalent to
the backtracking regex semantics. -/
def ipv4PortPattern (s : String) : Bool :=
  match (((ipv4Group s.data).bind dotGroup).bind dotGroup).bind dotGroup with
  | some rest => ipv4Tail rest
  | none => false

/-- Model of `getProtocol` from src/services/utils.ts. -/
def getProtocol (domain : String) : String :=
  let isLocal :=
    strHasPre "localhost" domain ||
    strHasPre "127.0.0.1" domain ||
    strHasPre "0.0.0.0" domain ||
    hasSub "localhost:".data domain.data ||
    ipv4PortPattern domain
  if isLocal then "http://" else "https://"

/-! ## URL parsing, classification, keyword extraction -/

structure ParsedUrl where
  pathname : String
deriving DecidableEq

/-- Modelled from the platform: the WHATWG `URL` constructor as used by
`classifyUrl` and `extractGameKeyword` (it is a JS builtin, not part of
the repository).  Restricted to absolute http/https URLs: the scheme is
matched case-insensitively, the authority must be non-empty, and
`pathname` is the part after the authority up to `'?'`/`'#'`, with the
empty path normalized to "/" as WHATWG does for special schemes.
Userinfo/port splitting and percent-encoding normalization are not
modelled; no claim depends on them. -/
def parseUrl (s : String) : Option ParsedUrl :=
  let consume : List Char → Option ParsedUrl := fun rest =>
    let auth := rest.takeWhile (fun c => c ≠ '/' ∧ c ≠ '?' ∧ c ≠ '#')
    if auth.isEmpty then none
    else
      let after := rest.drop auth.length
      let path := after.takeWhile (fun c => c ≠ '?' ∧ c ≠ '#')
      some ⟨if path.isEmpty then "/" else ⟨path⟩⟩
  if strHasPre "http://" (lowerStr s) then consume (s.data.drop 7)
  else if strHasPre "https://" (lowerStr s) then consume (s.data.drop 8)
  else none

inductive UrlType
  | game
  | tag
  | category
  | home
  | unknown
deriving DecidableEq

/-- Model of `classifyUrl` from src/services/utils.ts, lines 54–66. -/
def classifyUrl (url : String) : UrlType :=
  match parseUrl url with
  | none => .unknown
  | some p =>
    let path := p.pathname
    if path = "/" ∨ path = "" then .home
    else if strHasPre "/c/" path || hasSub "/category/".data path.data then .category
    else if strHasPre "/t/" path || hasSub "/tag/".data path.data then .tag
    else .game

/-- Model of `extractGameKeyword` from src/services/utils.ts, lines 38–50. -/
def extractGameKeyword (url : String) : String :=
  match parseUrl url with
  | none => ""
  | some p =>
    let parts := ((splitOnChar '/' p.pathname.data).map
      (fun l => (⟨l⟩ : String))).filter (fun q => q ≠ "")
    match parts.getLast? with
    | none => ""
    | some slug =>
      let replaced : List Char := slug.data.map (fun c => if c = '-' ∨ c = '_' then ' ' else c)
      lowerStr (jsTrimStr ⟨replaced⟩)

/-! ## SHA-1 (`hashUrl` in src/services/utils.ts; also the dedup key of
`appendNewItems` in src/server/storage.ts) -/

def mask32 (n : Nat) : Nat := n % 4294967296

def rotl (k n : Nat) : Nat := mask32 ((n <<< k) ||| (n >>> (32 - k)))

def be32 (n : Nat) : List Nat :=
  [(n >>> 24) % 256, (n >>> 16) % 256, (n >>> 8) % 256, n % 256]

def be64 (n : Nat) : List Nat :=
  [(n >>> 56) % 256, (n >>> 48) % 256, (n >>> 40) % 256, (n >>> 32) % 256,
   (n >>> 24) % 256, (n >>> 16) % 256, (n >>> 8) % 256, n % 256]

/-- UTF-8 encoding of one character (the `TextEncoder` step of `hashUrl`). -/
def utf8Char (c : Char) : List Nat :=
  let n := c.toNat
  if n < 128 then [n]
  else if n < 2048 then [192 + n / 64, 128 + n % 64]
  else if n < 65536 then [224 + n / 4096, 128 + (n / 64) % 64, 128 + n % 64]
  else [240 + n / 262144, 128 + (n / 4096) % 64, 128 + (n / 64) % 64, 128 + n % 64]

def utf8Bytes (s : String) : List Nat := (s.data.map utf8Char).flatten

/-- First 16 32-bit big-endian words of a 64-byte block. -/
def sha1Words (block : List Nat) : Array Nat :=
  (List.range 16).foldl
    (fun a i =>
      a.push (block.getD (4 * i) 0 * 16777216 + block.getD (4 * i + 1) 0 * 65536 +
              block.getD (4 * i + 2) 0 * 256 + block.getD (4 * i + 3) 0))
    #[]

/-- Extend 16 words to 80 words. -/
def sha1Extend (w : Array Nat) : Array Nat :=
  (List.range 64).foldl
    (fun w _ =>
      let n := w.size
      w.push (rotl 1 ((w.getD (n - 3) 0) ^^^ (w.getD (n - 8) 0) ^^^
                      (w.getD (n - 14) 0) ^^^ (w.getD (n - 16) 0))))
    w

def sha1Round (w : Array Nat) (st : Nat × Nat × Nat × Nat × Nat) (i : Nat) :
    Nat × Nat × Nat × Nat × Nat :=
  let (a, b, c, d, e) := st
  let f :=
    if i < 20 then (b &&& c) ||| ((4294967295 ^^^ b) &&& d)
    else if i < 40 then b ^^^ c ^^^ d
    else if i < 60 then (b &&& c) ||| (b &&& d) ||| (c &&& d)
    else b ^^^ c ^^^ d
  let k :=
    if i < 20 then 1518500249
    else if i < 40 then 1859775393
    else if i < 60 then 2400959708
    else 3395469782
  let temp := mask32 (rotl 5 a + f + e + k + w.getD i 0)
  (temp, a, rotl 30 b, c, d)

def sha1Block (h : Nat × Nat × Nat × Nat × Nat) (block : List Nat) :
    Nat × Nat × Nat × Nat × Nat :=
  let w := sha1Extend (sha1Words block)
  let (a, b, c, d, e) := (List.range 80).foldl (sha1Round w) h
  let (h0, h1, h2, h3, h4) := h
  (mask32 (h0 + a), mask32 (h1 + b), mask32 (h2 + c), mask32 (h3 + d), mask32 (h4 + e))

/-- Split into 64-byte blocks (fuel-based so that it reduces in the kernel). -/
def chunks64 : Nat → List Nat → List (List Nat)
  | 0, _ => []
  | _ + 1, [] => []
  | fuel + 1, a :: rest => (a :: rest).take 64 :: chunks64 fuel ((a :: rest).drop 64)

def sha1Bytes (msg : List Nat) : List Nat :=
  let len := msg.length
  let padded := msg ++ 128 :: (List.replicate ((119 - len % 64) % 64) 0 ++ be64 (8 * len))
  let blocks := chunks64 padded.length padded
  let r := blocks.foldl sha1Block (1732584193, 4023233417, 2562383102, 271733878, 3285377520)
  be32 r.1 ++ be32 r.2.1 ++ be32 r.2.2.1 ++ be32 r.2.2.2.1 ++ be32 r.2.2.2.2

def hexDigitChar (d : Nat) : Char := Char.ofNat (if d < 10 then 48 + d else 87 + d)

def byteHex (b : Nat) : List Char := [hexDigitChar (b / 16), hexDigitChar (b % 16)]

/-- Model of `hashUrl` from src/services/utils.ts: lowercase-hex SHA-1 of the UTF-8
bytes of the URL. -/
def hashUrl (s : String) : String := ⟨((sha1Bytes (utf8Bytes s)).map byteHex).flatten⟩

/-! ## Data model (src/types.ts, src/server/storage.ts) -/

inductive Status
  | unknown
  | ok
  | failed
  | unsupported
deriving DecidableEq

inductive Outcome
  | success
  | failure
deriving DecidableEq

inductive ReviewStatus
  | pending
  | confirmed
  | ignored
  | not_game
deriving DecidableEq

structure ScanSummary where
  outcome : Outcome
  parsedCount : Nat
  newOrInsertedCount : Nat
  durationMs : Nat
  error : Option String
  sampleUrls : List String
deriving DecidableEq

structure Site where
  id : String
  domain : String
  sitemapUrl : String
  status : Status
  errorMessage : String
  baselineReady : Bool
  baselineAt : Option String
  lastScanAt : Option String
  seenCount : Nat
  lastNewFound : Nat
  lastResult : Option ScanSummary
  createdAt : String
deriving DecidableEq

/-- NewItem from src/types.ts (the optional `confidence` field is never
written by the scanner and is omitted). -/
structure NewItem where
  id : String
  siteId : String
  domain : String
  url : String
  keywordAuto : String
  keywordFinal : String
  reviewStatus : ReviewStatus
  urlType : UrlType
  title : Option String
  discoveredAt : String
  sourceSitemapUrl : String
deriving DecidableEq

/-- Per-site seen map, a JS object `{ hash: url }`: an association list
with unique keys. -/
abbrev SeenMap := List (String × String)

/-- The whole seen store, a JS object `{ siteId: SeenMap }`. -/
abbrev SeenData := List (String × SeenMap)

/-- The three JSON files of the persistence layer. -/
structure Store where
  sites : List Site
  seen : SeenData
  items : List NewItem
deriving DecidableEq

/-- JS object property lookup. -/
def mapGet : List (String × α) → String → Option α
  | [], _ => none
  | (k', v) :: t, k => if k' = k then some v else mapGet t k

/-- JS object property assignment `obj[k] = v` (replaces in place, else
appends; insertion order of a JS object is preserved). -/
def mapSet : List (String × α) → String → α → List (String × α)
  | [], k, v => [(k, v)]
  | (k', v') :: t, k, v => if k' = k then (k, v) :: t else (k', v') :: mapSet t k v

/-- JS truthiness test `seen[hash]` as used by the diff loops: an entry
counts as seen only if present with a non-empty (truthy) URL value. -/
def seenHas (m : SeenMap) (k : String) : Bool :=
  match mapGet m k with
  | some v => v ≠ ""
  | none => false

/-! ## Sitemap locator (`discoverSitemap`, src/server/scanner.ts lines 7–61) -/

structure HttpResp where
  status : Nat
  body : String

/-- Root shape of `parser.parse` output as inspected by `discoverSitemap`
(`fast-xml-parser` is a library; its outcome on a given body is part of
the environment). `throwMsg` models the parser throwing. -/
inductive XmlRoot
  | urlsetRoot
  | indexRoot
  | otherRoot
  | throwMsg (msg : String)

/-- Environment of one `discoverSitemap` call: outcomes of the two HTTP
fetches (`.error msg` models a thrown exception carrying `e.message`)
and of the XML parse of any body. -/
structure DiscoverEnv where
  robotsResult : Except String HttpResp
  sitemapResult : Except String HttpResp
  parseXml : String → XmlRoot

/-- JS `line.split(/:(.+)/)[1]`: everything after the first colon that is
followed by at least one character; `none` when the regex does not match,
in which case the source calls `.trim()` on `undefined` and throws. -/
def afterColon : List Char → Option (List Char)
  | [] => none
  | ':' :: rest => if rest.isEmpty then none else some rest
  | _ :: rest => afterColon rest

/-- One iteration of the robots.txt line loop.  `none`: not a sitemap
directive (or empty value) — continue.  `some (.error ())`: the
`undefined.trim()` TypeError — aborts the whole robots block.
`some (.ok url)`: resolved directive — break. -/
def robotsLine (protocol domain line : String) : Option (Except Unit String) :=
  if strHasPre "sitemap:" (lowerStr (jsTrimStr line)) then
    match afterColon line.data with
    | none => some (.error ())
    | some rest =>
      let foundUrl := jsTrimStr ⟨rest⟩
      if foundUrl = "" then none
      else if strHasPre "http://" (lowerStr foundUrl) ||
              strHasPre "https://" (lowerStr foundUrl) then
        some (.ok foundUrl)
      else
        some (.ok (protocol ++ domain ++
          (if strHasPre "/" foundUrl then foundUrl else "/" ++ foundUrl)))
  else none

def robotsScan (protocol domain : String) : List String → Except Unit (Option String)
  | [] => .ok none
  | l :: ls =>
    match robotsLine protocol domain l with
    | some (.error _) => .error ()
    | some (.ok u) => .ok (some u)
    | none => robotsScan protocol domain ls

/-- The candidate sitemap URL after the robots.txt phase of
`discoverSitemap` (lines 8–38): the first resolved `sitemap:` directive
when robots.txt returned 200 and scanning it did not throw, else the
default `{protocol}{domain}/sitemap.xml`. -/
def resolveCandidate (env : DiscoverEnv) (domain : String) : String :=
  let protocol := getProtocol domain
  let dflt := protocol ++ domain ++ "/sitemap.xml"
  match env.robotsResult with
  | .error _ => dflt
  | .ok resp =>
    if resp.status = 200 then
      match robotsScan protocol domain
          ((splitOnChar '\n' resp.body.data).map (fun l => (⟨l⟩ : String))) with
      | .error _ => dflt
      | .ok none => dflt
      | .ok (some u) => u
    else dflt

structure DiscoverResult where
  url : String
  status : Status
  error : Option String
deriving DecidableEq

/-- Model of `discoverSitemap` from src/server/scanner.ts.  All exceptions of the
sitemap fetch/parse are caught by the source's `catch`, which reports
`e.message || 'Network error'`; the function itself never throws. -/
def discoverSitemap (env : DiscoverEnv) (domain : String) : DiscoverResult :=
  let target := resolveCandidate env domain
  match env.sitemapResult with
  | .error msg => ⟨target, .failed, some (if msg = "" then "Network error" else msg)⟩
  | .ok resp =>
    if resp.status = 200 then
      match env.parseXml resp.body with
      | .urlsetRoot => ⟨target, .ok, none⟩
      | .indexRoot => ⟨target, .unsupported, some "Type: sitemapindex"⟩
      | .otherRoot => ⟨target, .unsupported, some "Unknown XML structure"⟩
      | .throwMsg m => ⟨target, .failed, some (if m = "" then "Network error" else m)⟩
    else ⟨target, .failed, some ("HTTP " ++ toString resp.status)⟩

/-! ## Diff engine (`api.baseline` and `api.scan`, src/server/scanner.ts
lines 147–298, with `appendNewItems` from src/server/storage.ts)

`fetchSitemapUrls` (scanner.ts lines 63–81) is a single HTTP GET plus XML
extraction whose outcome — the list of `loc` strings, or a thrown
exception message (`'Not a urlset sitemap'`, network errors …) — is what
the diff engine consumes; the environment records that outcome directly.
Persistence writes can throw (fs errors); a `some msg` in the
environment models the corresponding write throwing with `e.message = msg`.
The site-record write (`saveSites`) is modelled as reliable: the source
also calls it from its own `catch` handler, where a failure would escape
`api.scan`/`api.baseline` altogether. -/

inductive Effect
  | fetchSitemap
  | loadSeen
  | saveSeen
  | appendItems
  | saveSites
  | fetchTitle
deriving DecidableEq

/-- Environment of one `baseline`/`scan` call: outcomes of the platform
operations it performs, plus clock and UUID sources. -/
structure Env where
  fetchResult : Except String (List String)
  saveSeenErr : Option String
  appendErr : Option String
  titles : String → Option String
  mkId : Nat → String
  now : String
  durationMs : Nat

/-- JS `sites.findIndex(s => s.id === id)` plus the found element. -/
def findSite : List Site → String → Option (Nat × Site)
  | [], _ => none
  | s :: rest, id =>
    if s.id = id then some (0, s)
    else (findSite rest id).map (fun p => (p.1 + 1, p.2))

/-- The shared per-URL loop of `api.baseline` (lines 162–171) and
`api.scan` (lines 224–232): normalize and hash each URL in order and,
when the seen map has no truthy entry for the hash, insert `hash → url`.
Returns the final map, the insertion count (`addedCount`) and the list
of inserted URLs (`newUrls`) in discovery order. -/
def diffUrls (seen : SeenMap) : List String → SeenMap × Nat × List String
  | [] => (seen, 0, [])
  | raw :: rest =>
    let url := normalizeUrl raw
    let h := hashUrl url
    if seenHas seen h then diffUrls seen rest
    else
      let r := diffUrls (mapSet seen h url) rest
      (r.1, r.2.1 + 1, url :: r.2.2)

def failureSummary (env : Env) (msg : String) : ScanSummary :=
  ⟨.failure, 0, 0, env.durationMs, some msg, []⟩

/-- The identical `catch` blocks of `api.baseline`/`api.scan` (lines
192–202 and 284–294): mark the site failed, record the message and a
failure summary; `seenCount`, `lastNewFound`, `baselineReady` … untouched. -/
def failSite (env : Env) (site : Site) (msg : String) : Site :=
  { site with
    status := .failed
    errorMessage := msg
    lastResult := some (failureSummary env msg) }

def successSummary (env : Env) (parsed newCount : Nat) (samples : List String) : ScanSummary :=
  ⟨.success, parsed, newCount, env.durationMs, none, samples⟩

/-- One `NewItem` as built by `api.scan` lines 236–255. -/
def buildItem (env : Env) (site : Site) (idx : Nat) (url : String) : NewItem :=
  let classification := classifyUrl url
  let keyword := extractGameKeyword url
  { id := "new_" ++ env.mkId idx
    siteId := site.id
    domain := site.domain
    url := url
    keywordAuto := keyword
    keywordFinal := keyword
    reviewStatus := if classification = UrlType.game then .pending else .not_game
    urlType := classification
    title := env.titles url
    discoveredAt := env.now
    sourceSitemapUrl := site.sitemapUrl }

def buildItems (env : Env) (site : Site) : Nat → List String → List NewItem
  | _, [] => []
  | idx, url :: rest => buildItem env site idx url :: buildItems env site (idx + 1) rest

/-- Dedup key of `storage.appendNewItems`: `siteId + '_' + sha1(url)`. -/
def itemKey (it : NewItem) : String := it.siteId ++ "_" ++ hashUrl it.url

/-- Model of `appendNewItems` from src/server/storage.ts lines 130–144: filter the
batch against the keys of all stored items, append the survivors. -/
def appendNewItems (current : List NewItem) (items : List NewItem) : List NewItem :=
  let existing := current.map itemKey
  let toAdd := items.filter (fun it => !(existing.contains (itemKey it)))
  if toAdd.isEmpty then current else current ++ toAdd

structure ScanResult where
  store : Store
  trace : List Effect
  result : Except String (Site × List NewItem)

structure BaselineResult where
  store : Store
  trace : List Effect
  result : Except String Site

instance {ε α : Type} [DecidableEq ε] [DecidableEq α] : DecidableEq (Except ε α) :=
  fun a b =>
    match a, b with
    | .error x, .error y =>
      if h : x = y then .isTrue (by rw [h]) else .isFalse (fun hc => h (Except.error.inj hc))
    | .ok x, .ok y =>
      if h : x = y then .isTrue (by rw [h]) else .isFalse (fun hc => h (Except.ok.inj hc))
    | .error _, .ok _ => .isFalse (fun hc => Except.noConfusion hc)
    | .ok _, .error _ => .isFalse (fun hc => Except.noConfusion hc)

/-- The re-insert loop of `api.scan` (lines 259–262), as a fold. -/
def reinsert (m : SeenMap) (items : List NewItem) : SeenMap :=
  items.foldl (fun m it => mapSet m (hashUrl it.url) it.url) m

/-- The success-path site update of `api.scan` (lines 268–279):
`lastScanAt = now`, `status = ok`, `seenCount = |final seen map|`,
`lastNewFound = |new items|`, success summary sampling the first 5 new
item URLs.  `errorMessage` is left as it was. -/
def scanSuccessSite (env : Env) (site : Site) (parsed seenLen : Nat)
    (items : List NewItem) : Site :=
  { site with
    lastScanAt := some env.now
    status := .ok
    seenCount := seenLen
    lastNewFound := items.length
    lastResult := some (successSummary env parsed items.length
      ((items.take 5).map (fun it => it.url))) }

/-- The body of `api.scan`'s `try` block after `fetchSitemapUrls`
succeeded with `urls` (src/server/scanner.ts lines 219–296). -/
def scanFetched (env : Env) (store : Store) (idx : Nat) (site : Site)
    (urls : List String) : ScanResult :=
  let siteSeen := (mapGet store.seen site.id).getD []
  let d := diffUrls siteSeen urls
  let newUrls := d.2.2
  let items := buildItems env site 0 newUrls
  let titleTrace : List Effect := newUrls.map (fun _ => .fetchTitle)
  if items.isEmpty then
    let site' := scanSuccessSite env site urls.length d.1.length items
    ⟨{ store with sites := store.sites.set idx site' },
     [.fetchSitemap, .loadSeen] ++ titleTrace ++ [.saveSites], .ok (site', items)⟩
  else
    let finalSeen := reinsert d.1 items
    match env.saveSeenErr with
    | some m =>
      ⟨{ store with sites := store.sites.set idx (failSite env site m) },
       [.fetchSitemap, .loadSeen] ++ titleTrace ++ [.saveSeen, .saveSites], .error m⟩
    | none =>
      let store1 := { store with seen := mapSet store.seen site.id finalSeen }
      match env.appendErr with
      | some m =>
        ⟨{ store1 with sites := store1.sites.set idx (failSite env site m) },
         [.fetchSitemap, .loadSeen] ++ titleTrace ++ [.saveSeen, .appendItems, .saveSites],
         .error m⟩
      | none =>
        let store2 := { store1 with items := appendNewItems store1.items items }
        let site' := scanSuccessSite env site urls.length finalSeen.length items
        ⟨{ store2 with sites := store2.sites.set idx site' },
         [.fetchSitemap, .loadSeen] ++ titleTrace ++ [.saveSeen, .appendItems, .saveSites],
         .ok (site', items)⟩

/-- Model of `api.scan` from src/server/scanner.ts lines 208–298.  The `.error`
results are the exceptions the source throws; `trace` records the
platform operations performed, in order. -/
def scan (env : Env) (store : Store) (id : String) : ScanResult :=
  match findSite store.sites id with
  | none => ⟨store, [], .error "Site not found"⟩
  | some (idx, site) =>
    if site.baselineReady = false then ⟨store, [], .error "Baseline not ready"⟩
    else
      match env.fetchResult with
      | .error msg =>
        ⟨{ store with sites := store.sites.set idx (failSite env site msg) },
         [.fetchSitemap, .saveSites], .error msg⟩
      | .ok urls => scanFetched env store idx site urls

/-- Model of `api.baseline` from src/server/scanner.ts lines 147–206. -/
def baseline (env : Env) (store : Store) (id : String) : BaselineResult :=
  match findSite store.sites id with
  | none => ⟨store, [], .error "Site not found"⟩
  | some (idx, site) =>
    match env.fetchResult with
    | .error msg =>
      ⟨{ store with sites := store.sites.set idx (failSite env site msg) },
       [.fetchSitemap, .saveSites], .error msg⟩
    | .ok urls =>
      let base := (mapGet store.seen site.id).getD []
      let d := diffUrls base urls
      let samples := (urls.map normalizeUrl).take 5
      match env.saveSeenErr with
      | some m =>
        ⟨{ store with sites := store.sites.set idx (failSite env site m) },
         [.fetchSitemap, .loadSeen, .saveSeen, .saveSites], .error m⟩
      | none =>
        let site' := { site with
                       baselineReady := true
                       baselineAt := some env.now
                       status := .ok
                       errorMessage := ""
                       seenCount := d.1.length
                       lastResult := some (successSummary env urls.length d.2.1 samples) }
        ⟨{ store with
           seen := mapSet store.seen site.id d.1
           sites := store.sites.set idx site' },
         [.fetchSitemap, .loadSeen, .saveSeen, .saveSites], .ok site'⟩

/-- Items reported by a scan (empty when the scan failed). -/
def scanItems (r : ScanResult) : List NewItem :=
  match r.result with
  | .ok p => p.2
  | .error _ => []

/-- The `newOrInsertedCount` (addedCount) of a successful baseline. -/
def baselineAdded (r : BaselineResult) : Option Nat :=
  match r.result with
  | .ok s =>
    match s.lastResult with
    | some sum => some sum.newOrInsertedCount
    | none => none
  | .error _ => none

/-! ## Lemmas about the seen map and the diff loop -/

theorem mapGet_mapSet_self (m : List (String × α)) (k : String) (v : α) :
    mapGet (mapSet m k v) k = some v := by
  induction m with
  | nil => simp [mapGet, mapSet]
  | cons p t ih =>
    by_cases h : p.1 = k
    · simp [mapGet, mapSet, h]
    · simp [mapGet, mapSet, h, ih]

theorem mapGet_mapSet_ne (m : List (String × α)) (k' k : String) (v : α) (h : k' ≠ k) :
    mapGet (mapSet m k' v) k = mapGet m k := by
  induction m with
  | nil => simp [mapGet, mapSet, h]
  | cons p t ih =>
    by_cases hp : p.1 = k'
    · simp [mapGet, mapSet, hp, h, Ne.symm h]
    · by_cases hk : p.1 = k
      · simp [mapGet, mapSet, hp, hk, Ne.symm h]
      · simp [mapGet, mapSet, hp, hk, ih]

theorem mapGet_mapSet_isSome (m : List (String × α)) (k' k : String) (v : α)
    (h : (mapGet m k).isSome) : (mapGet (mapSet m k' v) k).isSome := by
  by_cases hk : k' = k
  · subst hk; simp [mapGet_mapSet_self]
  · rwa [mapGet_mapSet_ne m k' k v hk]

theorem seenHas_iff (m : SeenMap) (k : String) :
    seenHas m k = true ↔ ∃ v, mapGet m k = some v ∧ v ≠ "" := by
  unfold seenHas
  cases h : mapGet m k with
  | none => simp
  | some v => simp [h]

/-- Entries with a truthy (non-empty) value are never overwritten by the
diff loop, and no reported-new URL hashes onto such an entry. -/
theorem diffUrls_preserve (us : List String) (m : SeenMap) (k v : String)
    (hv : v ≠ "") (h : mapGet m k = some v) :
    mapGet (diffUrls m us).1 k = some v ∧
      ∀ u ∈ (diffUrls m us).2.2, hashUrl u ≠ k := by
  induction us generalizing m with
  | nil => simpa [diffUrls] using h
  | cons raw rest ih =>
    cases hs : seenHas m (hashUrl (normalizeUrl raw)) with
    | true =>
      have := ih m h
      simpa [diffUrls, hs] using this
    | false =>
      have hne : hashUrl (normalizeUrl raw) ≠ k := by
        intro he
        rw [he] at hs
        rw [(seenHas_iff m _).mpr ⟨v, h, hv⟩] at hs
        exact Bool.noConfusion hs
      have h' : mapGet (mapSet m (hashUrl (normalizeUrl raw)) (normalizeUrl raw)) k = some v := by
        rw [mapGet_mapSet_ne _ _ _ _ hne]; exact h
      have hrec := ih _ h'
      simp only [diffUrls, hs, Bool.false_eq_true, if_false, List.mem_cons]
      refine ⟨hrec.1, ?_⟩
      intro u hu
      rcases hu with h1 | h2
      · subst h1; exact hne
      · exact hrec.2 u h2

/-- Keys are never removed by the diff loop. -/
theorem diffUrls_isSome (us : List String) (m : SeenMap) (k : String)
    (h : (mapGet m k).isSome) : (mapGet (diffUrls m us).1 k).isSome := by
  induction us generalizing m with
  | nil => simpa [diffUrls] using h
  | cons raw rest ih =>
    cases hs : seenHas m (hashUrl (normalizeUrl raw)) with
    | true => simpa [diffUrls, hs] using ih m h
    | false =>
      have h' := mapGet_mapSet_isSome m (hashUrl (normalizeUrl raw)) k (normalizeUrl raw) h
      simpa [diffUrls, hs] using ih _ h'

/-- Every reported-new URL was untruthy in the map it was diffed against. -/
theorem diffUrls_new_fresh (us : List String) (m : SeenMap) (u : String)
    (h : u ∈ (diffUrls m us).2.2) : seenHas m (hashUrl u) = false := by
  induction us generalizing m with
  | nil => simp [diffUrls] at h
  | cons raw rest ih =>
    cases hs : seenHas m (hashUrl (normalizeUrl raw)) with
    | true =>
      simp only [diffUrls, hs, if_true] at h
      exact ih m h
    | false =>
      simp only [diffUrls, hs, Bool.false_eq_true, if_false, List.mem_cons] at h
      rcases h with h1 | h2
      · subst h1; exact hs
      · have hrec := ih _ h2
        by_cases he : hashUrl u = hashUrl (normalizeUrl raw)
        · rw [he]; exact hs
        · unfold seenHas at hrec ⊢
          rwa [mapGet_mapSet_ne _ _ _ _ (fun he' => he he'.symm)] at hrec

/-- Every reported-new URL is the normalization of some sitemap URL. -/
theorem diffUrls_new_sub (us : List String) (m : SeenMap) (u : String)
    (h : u ∈ (diffUrls m us).2.2) : ∃ raw ∈ us, u = normalizeUrl raw := by
  induction us generalizing m with
  | nil => simp [diffUrls] at h
  | cons raw rest ih =>
    cases hs : seenHas m (hashUrl (normalizeUrl raw)) with
    | true =>
      simp only [diffUrls, hs, if_true] at h
      obtain ⟨r, hr, he⟩ := ih m h
      exact ⟨r, List.mem_cons_of_mem _ hr, he⟩
    | false =>
      simp only [diffUrls, hs, Bool.false_eq_true, if_false, List.mem_cons] at h
      rcases h with h1 | h2
      · exact ⟨raw, List.mem_cons_self _ _, h1⟩
      · obtain ⟨r, hr, he⟩ := ih _ h2
        exact ⟨r, List.mem_cons_of_mem _ hr, he⟩

/-- After the diff loop every URL with non-empty normalization is truthy
in the final map. -/
theorem diffUrls_all_present (us : List String) (m : SeenMap)
    (hne : ∀ u ∈ us, normalizeUrl u ≠ "") :
    ∀ u ∈ us, seenHas (diffUrls m us).1 (hashUrl (normalizeUrl u)) = true := by
  induction us generalizing m with
  | nil => intro u hu; simp at hu
  | cons raw rest ih =>
    intro u hu
    cases hs : seenHas m (hashUrl (normalizeUrl raw)) with
    | true =>
      rcases List.mem_cons.mp hu with h1 | h2
      · subst h1
        obtain ⟨v, hget, hv⟩ := (seenHas_iff m _).mp hs
        have := (diffUrls_preserve rest m _ v hv hget).1
        simp only [diffUrls, hs, if_true]
        exact (seenHas_iff _ _).mpr ⟨v, this, hv⟩
      · have := ih m (fun u' hu' => hne u' (List.mem_cons_of_mem _ hu')) u h2
        simpa [diffUrls, hs] using this
    | false =>
      have hraw : normalizeUrl raw ≠ "" := hne raw (List.mem_cons_self _ _)
      have hself : mapGet (mapSet m (hashUrl (normalizeUrl raw)) (normalizeUrl raw))
          (hashUrl (normalizeUrl raw)) = some (normalizeUrl raw) := mapGet_mapSet_self _ _ _
      rcases List.mem_cons.mp hu with h1 | h2
      · rw [h1]
        have := (diffUrls_preserve rest _ _ _ hraw hself).1
        simp only [diffUrls, hs, Bool.false_eq_true, if_false]
        exact (seenHas_iff _ _).mpr ⟨normalizeUrl raw, this, hraw⟩
      · have := ih (mapSet m (hashUrl (normalizeUrl raw)) (normalizeUrl raw))
          (fun u' hu' => hne u' (List.mem_cons_of_mem _ hu')) u h2
        simpa [diffUrls, hs] using this

/-- When every URL is already truthy, the diff loop is a no-op. -/
theorem diffUrls_skip_all (us : List String) (m : SeenMap)
    (h : ∀ u ∈ us, seenHas m (hashUrl (normalizeUrl u)) = true) :
    diffUrls m us = (m, 0, []) := by
  induction us with
  | nil => simp [diffUrls]
  | cons raw rest ih =>
    have hs := h raw (List.mem_cons_self _ _)
    simp [diffUrls, hs, ih (fun u hu => h u (List.mem_cons_of_mem _ hu))]

/-- On fresh input with pairwise-distinct hashed normalizations, every URL
is inserted and counted. -/
theorem diffUrls_count_fresh (us : List String) (m : SeenMap)
    (hfresh : ∀ u ∈ us, seenHas m (hashUrl (normalizeUrl u)) = false)
    (hnodup : (us.map (fun u => hashUrl (normalizeUrl u))).Nodup) :
    (diffUrls m us).2.1 = us.length := by
  induction us generalizing m with
  | nil => simp [diffUrls]
  | cons raw rest ih =>
    have hs := hfresh raw (List.mem_cons_self _ _)
    have hnd : (∀ x ∈ rest, ¬hashUrl (normalizeUrl x) = hashUrl (normalizeUrl raw)) ∧
        (List.map (fun u => hashUrl (normalizeUrl u)) rest).Nodup := by
      simpa using hnodup
    have hrest : ∀ u ∈ rest,
        seenHas (mapSet m (hashUrl (normalizeUrl raw)) (normalizeUrl raw))
          (hashUrl (normalizeUrl u)) = false := by
      intro u hu
      have hne : hashUrl (normalizeUrl raw) ≠ hashUrl (normalizeUrl u) :=
        fun he => hnd.1 u hu he.symm
      unfold seenHas
      rw [mapGet_mapSet_ne _ _ _ _ hne]
      exact hfresh u (List.mem_cons_of_mem _ hu)
    simp [diffUrls, hs, ih _ hrest hnd.2]

/-- If the diff loop reported nothing new, every URL was already truthy. -/
theorem diffUrls_new_nil (us : List String) (m : SeenMap)
    (h : (diffUrls m us).2.2 = []) :
    ∀ u ∈ us, seenHas m (hashUrl (normalizeUrl u)) = true := by
  induction us with
  | nil => intro u hu; simp at hu
  | cons raw rest ih =>
    intro u hu
    cases hs : seenHas m (hashUrl (normalizeUrl raw)) with
    | true =>
      rcases List.mem_cons.mp hu with h1 | h2
      · subst h1; exact hs
      · simp only [diffUrls, hs, if_true] at h
        exact ih h u h2
    | false =>
      simp [diffUrls, hs] at h

/-- Among the reported-new URLs, the non-empty ones are pairwise distinct. -/
theorem diffUrls_new_nodup (us : List String) (m : SeenMap) :
    ((diffUrls m us).2.2.filter (fun u => u ≠ "")).Nodup := by
  induction us generalizing m with
  | nil => simp [diffUrls]
  | cons raw rest ih =>
    cases hs : seenHas m (hashUrl (normalizeUrl raw)) with
    | true => simpa [diffUrls, hs] using ih m
    | false =>
      by_cases hraw : normalizeUrl raw = ""
      · simp only [diffUrls, hs, Bool.false_eq_true, if_false]
        rw [List.filter_cons_of_neg (by simp [hraw])]
        exact ih _
      · simp only [diffUrls, hs, Bool.false_eq_true, if_false]
        rw [List.filter_cons_of_pos (by simpa using hraw)]
        refine List.nodup_cons.mpr ⟨?_, ih _⟩
        intro hmem
        have hmem' := List.mem_of_mem_filter hmem
        have := diffUrls_new_fresh rest _ _ hmem'
        unfold seenHas at this
        rw [mapGet_mapSet_self] at this
        simp [hraw] at this

/-! ## Lemmas about item construction and the re-insert loop -/

theorem buildItems_map_url (env : Env) (site : Site) :
    ∀ (i : Nat) (us : List String),
      (buildItems env site i us).map (fun it => it.url) = us := by
  intro i us
  induction us generalizing i with
  | nil => simp [buildItems]
  | cons u rest ih => simp [buildItems, buildItem, ih]

theorem buildItems_eq_nil (env : Env) (site : Site) (i : Nat) (us : List String) :
    buildItems env site i us = [] ↔ us = [] := by
  cases us <;> simp [buildItems]

/-- Every item built by the scan has `reviewStatus = pending` exactly when
it was classified `game`, and `not_game` otherwise. -/
theorem buildItems_review (env : Env) (site : Site) :
    ∀ (i : Nat) (us : List String), ∀ it ∈ buildItems env site i us,
      (it.reviewStatus = .pending ↔ it.urlType = .game) ∧
        (it.urlType ≠ .game → it.reviewStatus = .not_game) := by
  intro i us
  induction us generalizing i with
  | nil => intro it h; simp [buildItems] at h
  | cons u rest ih =>
    intro it h
    rcases List.mem_cons.mp h with h1 | h2
    · subst h1
      by_cases hc : classifyUrl u = UrlType.game
      · simp [buildItem, hc]
      · simp [buildItem, hc]
    · exact ih (i + 1) it h2

theorem reinsert_preserve (items : List NewItem) (m : SeenMap) (k v : String)
    (hget : mapGet m k = some v)
    (hkeys : ∀ it ∈ items, hashUrl it.url ≠ k) :
    mapGet (reinsert m items) k = some v := by
  induction items generalizing m with
  | nil => simpa [reinsert] using hget
  | cons it rest ih =>
    have hk := hkeys it (List.mem_cons_self _ _)
    have : mapGet (mapSet m (hashUrl it.url) it.url) k = some v := by
      rw [mapGet_mapSet_ne _ _ _ _ hk]; exact hget
    simpa [reinsert] using ih _ this (fun it' h' => hkeys it' (List.mem_cons_of_mem _ h'))

theorem reinsert_seenHas (items : List NewItem) (m : SeenMap) (k : String)
    (h : seenHas m k = true) (hvals : ∀ it ∈ items, it.url ≠ "") :
    seenHas (reinsert m items) k = true := by
  induction items generalizing m with
  | nil => simpa [reinsert] using h
  | cons it rest ih =>
    have hstep : seenHas (mapSet m (hashUrl it.url) it.url) k = true := by
      by_cases hk : hashUrl it.url = k
      · subst hk
        exact (seenHas_iff _ _).mpr ⟨it.url, mapGet_mapSet_self _ _ _,
          hvals it (List.mem_cons_self _ _)⟩
      · unfold seenHas
        rw [mapGet_mapSet_ne _ _ _ _ hk]
        exact h
    simpa [reinsert] using ih _ hstep (fun it' h' => hvals it' (List.mem_cons_of_mem _ h'))

theorem reinsert_isSome (items : List NewItem) (m : SeenMap) (k : String)
    (h : (mapGet m k).isSome) : (mapGet (reinsert m items) k).isSome := by
  induction items generalizing m with
  | nil => simpa [reinsert] using h
  | cons it rest ih =>
    have := mapGet_mapSet_isSome m (hashUrl it.url) k it.url h
    simpa [reinsert] using ih _ this

/-! ## Lemmas about `findSite` and site-list updates -/

theorem findSite_id : ∀ (l : List Site) (id : String) (idx : Nat) (s : Site),
    findSite l id = some (idx, s) → s.id = id := by
  intro l
  induction l with
  | nil => intro id idx s h; simp [findSite] at h
  | cons a rest ih =>
    intro id idx s h
    by_cases ha : a.id = id
    · simp [findSite, ha] at h
      rw [← h.2]; exact ha
    · simp only [findSite, ha, if_false] at h
      cases hr : findSite rest id with
      | none => rw [hr] at h; simp at h
      | some p =>
        rw [hr] at h; simp at h
        rw [← h.2]; exact ih id p.1 p.2 (by rw [hr])

theorem findSite_set : ∀ (l : List Site) (id : String) (idx : Nat) (s t : Site),
    findSite l id = some (idx, s) → t.id = id →
    findSite (l.set idx t) id = some (idx, t) := by
  intro l
  induction l with
  | nil => intro id idx s t h _; simp [findSite] at h
  | cons a rest ih =>
    intro id idx s t h ht
    by_cases ha : a.id = id
    · simp [findSite, ha] at h
      rw [← h.1]
      simp [findSite, ht]
    · simp only [findSite, ha, if_false] at h
      cases hr : findSite rest id with
      | none => rw [hr] at h; simp at h
      | some p =>
        rw [hr] at h; simp at h
        have := ih id p.1 p.2 t (by rw [hr]) ht
        rw [← h.1]
        simp [List.set, findSite, ha, this]

/-- Replacing the found site record with one that agrees under `proj`
leaves the projected site list unchanged. -/
theorem findSite_set_map (proj : Site → β) :
    ∀ (l : List Site) (id : String) (idx : Nat) (s t : Site),
    findSite l id = some (idx, s) → proj t = proj s →
    (l.set idx t).map proj = l.map proj := by
  intro l
  induction l with
  | nil => intro id idx s t h _; simp [findSite] at h
  | cons a rest ih =>
    intro id idx s t h hp
    by_cases ha : a.id = id
    · simp [findSite, ha] at h
      rw [← h.1]
      simp [List.set, h.2, hp]
    · simp only [findSite, ha, if_false] at h
      cases hr : findSite rest id with
      | none => rw [hr] at h; simp at h
      | some p =>
        rw [hr] at h; simp at h
        have := ih id p.1 p.2 t (by rw [hr]) (by rw [h.2]; exact hp)
        rw [← h.1]
        simp [List.set, this]

/-! ## Lemmas about `normalizeUrl` -/

theorem strEta (s : String) : String.mk s.data = s := by
  cases s
  rfl

theorem cutHash_no_hash (l : List Char) : ∀ c ∈ cutHash l, c ≠ '#' := by
  induction l with
  | nil => intro c hc; simp [cutHash] at hc
  | cons a t ih =>
    intro c hc
    by_cases ha : a = '#'
    · rw [cutHash, List.takeWhile_cons_of_neg (by simp [ha])] at hc
      simp at hc
    · rw [cutHash, List.takeWhile_cons_of_pos (by simp [ha])] at hc
      rcases List.mem_cons.mp hc with h1 | h2
      · subst h1; exact ha
      · exact ih c h2

theorem cutHash_eq_self (l : List Char) (h : ∀ c ∈ l, c ≠ '#') : cutHash l = l := by
  induction l with
  | nil => rfl
  | cons a t ih =>
    have ha := h a (List.mem_cons_self _ _)
    rw [cutHash, List.takeWhile_cons_of_pos (by simp [ha])]
    exact congrArg (a :: ·) (ih (fun c hc => h c (List.mem_cons_of_mem _ hc)))

theorem dropSlash_subset (l : List Char) : ∀ c ∈ dropSlash l, c ∈ l := by
  intro c hc
  unfold dropSlash at hc
  split at hc
  · exact List.dropLast_subset _ hc
  · exact hc

theorem dropWhile_eq_self_of_head (l : List Char) (p : Char → Bool)
    (h : ∀ c, l.head? = some c → p c = false) : l.dropWhile p = l := by
  cases l with
  | nil => rfl
  | cons a t => simp [List.dropWhile, h a rfl]

theorem trimRight_eq_self (l : List Char)
    (h : ∀ c, l.getLast? = some c → jsWs c = false) : trimRight l = l := by
  unfold trimRight
  rw [dropWhile_eq_self_of_head _ _ (fun c hc => h c (by rwa [← List.head?_reverse]))]
  exact List.reverse_reverse l

theorem trimLeft_self_append (l l' : List Char) (h : trimLeft l = l)
    (h' : trimLeft l' = l') : trimLeft (l ++ l') = l ++ l' := by
  cases l with
  | nil => simpa using h'
  | cons a t =>
    have hlen : ∀ (p : Char → Bool) (l : List Char), (l.dropWhile p).length ≤ l.length := by
      intro p l
      induction l with
      | nil => simp
      | cons b u ihl =>
        cases hb : p b with
        | true => rw [List.dropWhile_cons_of_pos hb]; exact Nat.le_succ_of_le ihl
        | false => rw [List.dropWhile_cons_of_neg (by simp [hb])]
    have ha : jsWs a = false := by
      by_contra hws
      have hws' : jsWs a = true := by
        cases hx : jsWs a
        · exact absurd hx hws
        · rfl
      unfold trimLeft at h
      rw [List.dropWhile_cons_of_pos hws'] at h
      have hl := congrArg List.length h
      have hle := hlen jsWs t
      simp at hl
      omega
    unfold trimLeft
    rw [List.cons_append, List.dropWhile_cons_of_neg (by simp [ha])]

/-- The output of `normalizeUrl` never contains `'#'`. -/
theorem normalizeUrl_no_hash (s : String) : ∀ c ∈ (normalizeUrl s).data, c ≠ '#' := by
  intro c hc
  unfold normalizeUrl at hc
  exact cutHash_no_hash _ c (dropSlash_subset _ c hc)

/-! ## Claim C2 — `normalizeUrl` -/

/-- Claim C2, counterexample: `normalizeUrl` is not idempotent.  On
`"http://x.com/a//"` it strips exactly one trailing slash, so a second
application strips another one and the result changes. -/
theorem claim_C2_normalize_counterexample :
    normalizeUrl "http://x.com/a//" = "http://x.com/a/" ∧
    normalizeUrl (normalizeUrl "http://x.com/a//") = "http://x.com/a" ∧
    normalizeUrl (normalizeUrl "http://x.com/a//") ≠ normalizeUrl "http://x.com/a//" := by
  refine ⟨by decide, by decide, by decide⟩

/-- Claim C2 (amended): `normalizeUrl` strips everything from the first
`'#'` and exactly one trailing slash (`normalize (s ++ "/") = s` whenever
`s` is `'#'`-free and has no leading whitespace, even when `s` itself ends
in `'/'`), and `normalize ("http://x.com/a/#frag") = "http://x.com/a"`;
it is idempotent on every input whose normalization does not end in a
trailing slash or trailing whitespace (`jsTrimStr`-stable), but not on
all inputs. -/
theorem claim_C2_normalize_amended :
    (∀ x : String, jsTrimStr (normalizeUrl x) = normalizeUrl x →
        (normalizeUrl x).data.getLast? ≠ some '/' →
        normalizeUrl (normalizeUrl x) = normalizeUrl x) ∧
    (∀ s : String, (∀ c ∈ s.data, c ≠ '#') → trimLeft s.data = s.data →
        normalizeUrl (s ++ "/") = s) ∧
    normalizeUrl "http://x.com/a/#frag" = "http://x.com/a" := by
  refine ⟨?_, ?_, by decide⟩
  · intro x h1 h2
    have hnh := normalizeUrl_no_hash x
    generalize hg : normalizeUrl x = out at h1 h2 hnh ⊢
    have hdata : jsTrim out.data = out.data := congrArg String.data h1
    show (⟨dropSlash (cutHash (jsTrim out.data))⟩ : String) = out
    rw [hdata, cutHash_eq_self _ hnh]
    unfold dropSlash
    rw [if_neg h2]
  · intro s hh hl
    have hd : (s ++ "/").data = s.data ++ ['/'] := by
      rw [String.data_append]
    show (⟨dropSlash (cutHash (jsTrim (s ++ "/").data))⟩ : String) = s
    rw [hd]
    have ht : jsTrim (s.data ++ ['/']) = s.data ++ ['/'] := by
      unfold jsTrim
      rw [trimLeft_self_append _ _ hl (by decide)]
      refine trimRight_eq_self _ (fun c hc => ?_)
      rw [List.getLast?_concat] at hc
      cases hc
      decide
    rw [ht, cutHash_eq_self _ (fun c hc => ?_)]
    · unfold dropSlash
      rw [if_pos (List.getLast?_concat _), List.dropLast_concat]
    · rcases List.mem_append.mp hc with h1 | h2
      · exact hh c h1
      · simp at h2
        subst h2
        decide

/-- Claim C2, witness for the amended statement at concrete inputs. -/
theorem claim_C2_normalize_witness :
    normalizeUrl (normalizeUrl "http://x.com/a") = normalizeUrl "http://x.com/a" ∧
    normalizeUrl ("http://x.com/a" ++ "/") = "http://x.com/a" :=
  ⟨claim_C2_normalize_amended.1 "http://x.com/a" (by decide) (by decide),
   claim_C2_normalize_amended.2.1 "http://x.com/a" (by decide) (by decide)⟩

/-! ## Claim C4 — `getProtocol` -/

/-- Modelled from the spec's words for claim C4: the domain *is*
`localhost`, `127.0.0.1` or `0.0.0.0`, or matches the bare IPv4[:port]
pattern.  To be compared with the source's `getProtocol`, which tests
`startsWith`/`includes` instead of equality. -/
def specLocalDomain (d : String) : Bool :=
  decide (d = "localhost") || decide (d = "127.0.0.1") || decide (d = "0.0.0.0") ||
    ipv4PortPattern d

/-- Claim C4, counterexample: `getProtocol` uses `startsWith`, so the
public-looking domain `"localhost.example.com"` gets `http://` although it
is none of `localhost`/`127.0.0.1`/`0.0.0.0` and no IPv4[:port]. -/
theorem claim_C4_protocol_counterexample :
    getProtocol "localhost.example.com" = "http://" ∧
    specLocalDomain "localhost.example.com" = false ∧
    ¬(getProtocol "localhost.example.com" = "http://" ↔
        specLocalDomain "localhost.example.com" = true) := by
  refine ⟨by decide, by decide, by decide⟩

/-- Claim C4 (amended): the scheme is `http://` exactly when the domain
starts with `localhost`, `127.0.0.1` or `0.0.0.0`, contains
`localhost:`, or matches the bare IPv4[:port] pattern; every other domain
gets `https://`. -/
theorem claim_C4_protocol_amended (d : String) :
    (getProtocol d = "http://" ↔
      (strHasPre "localhost" d || strHasPre "127.0.0.1" d || strHasPre "0.0.0.0" d ||
        hasSub "localhost:".data d.data || ipv4PortPattern d) = true) ∧
    (getProtocol d = "http://" ∨ getProtocol d = "https://") := by
  cases h : (strHasPre "localhost" d || strHasPre "127.0.0.1" d || strHasPre "0.0.0.0" d ||
      hasSub "localhost:".data d.data || ipv4PortPattern d) with
  | true =>
    refine ⟨?_, ?_⟩
    · simp [getProtocol, h]
    · left; simp [getProtocol, h]
  | false =>
    refine ⟨?_, ?_⟩
    · simp only [getProtocol, h]
      constructor
      · intro hc
        exact absurd hc (by decide)
      · intro hc
        exact absurd hc (by decide)
    · right; simp [getProtocol, h]

/-! ## Claim C3 — response mapping of `discoverSitemap` -/

/-- Claim C3 (confirmed): for the candidate sitemap fetch, a non-200
response maps to `failed` with error `"HTTP {code}"`; a 200 body whose
XML root is `urlset` maps to `ok`, root `sitemapindex` to `unsupported`
with `"Type: sitemapindex"`, any other root to `unsupported` with
`"Unknown XML structure"`; a (non-empty-message) network or parse
exception maps to `failed` with the exception message. -/
theorem claim_C3_locator_mapping (env : DiscoverEnv) (domain : String) :
    (∀ st body, env.sitemapResult = .ok ⟨st, body⟩ → st ≠ 200 →
      discoverSitemap env domain =
        ⟨resolveCandidate env domain, .failed, some ("HTTP " ++ toString st)⟩) ∧
    (∀ st body, env.sitemapResult = .ok ⟨st, body⟩ → st = 200 →
      env.parseXml body = .urlsetRoot →
      discoverSitemap env domain = ⟨resolveCandidate env domain, .ok, none⟩) ∧
    (∀ st body, env.sitemapResult = .ok ⟨st, body⟩ → st = 200 →
      env.parseXml body = .indexRoot →
      discoverSitemap env domain =
        ⟨resolveCandidate env domain, .unsupported, some "Type: sitemapindex"⟩) ∧
    (∀ st body, env.sitemapResult = .ok ⟨st, body⟩ → st = 200 →
      env.parseXml body = .otherRoot →
      discoverSitemap env domain =
        ⟨resolveCandidate env domain, .unsupported, some "Unknown XML structure"⟩) ∧
    (∀ st body msg, env.sitemapResult = .ok ⟨st, body⟩ → st = 200 →
      env.parseXml body = .throwMsg msg → msg ≠ "" →
      discoverSitemap env domain = ⟨resolveCandidate env domain, .failed, some msg⟩) ∧
    (∀ msg, env.sitemapResult = .error msg → msg ≠ "" →
      discoverSitemap env domain = ⟨resolveCandidate env domain, .failed, some msg⟩) := by
  refine ⟨?_, ?_, ?_, ?_, ?_, ?_⟩
  · intro st body h hst
    simp [discoverSitemap, h, hst]
  · intro st body h hst hp
    simp [discoverSitemap, h, hst, hp]
  · intro st body h hst hp
    simp [discoverSitemap, h, hst, hp]
  · intro st body h hst hp
    simp [discoverSitemap, h, hst, hp]
  · intro st body msg h hst hp hmsg
    simp [discoverSitemap, h, hst, hp, hmsg]
  · intro msg h hmsg
    simp [discoverSitemap, h, hmsg]

/-- Claim C3, witness: a 404 on the candidate URL yields
`failed` / `"HTTP 404"`. -/
theorem claim_C3_locator_witness :
    discoverSitemap ⟨.error "refused", .ok ⟨404, ""⟩, fun _ => .otherRoot⟩ "x.com" =
      ⟨resolveCandidate ⟨.error "refused", .ok ⟨404, ""⟩, fun _ => .otherRoot⟩ "x.com",
       .failed, some "HTTP 404"⟩ :=
  (claim_C3_locator_mapping ⟨.error "refused", .ok ⟨404, ""⟩, fun _ => .otherRoot⟩
    "x.com").1 404 "" rfl (by decide)

/-! ## Claim C10 — totality of `discoverSitemap` -/

theorem strAppend_ne_empty (a b : String) (h : a ≠ "") : a ++ b ≠ "" := by
  intro hc
  have hd := congrArg String.data hc
  rw [String.data_append] at hd
  have hdata := (List.append_eq_nil.mp hd).1
  apply h
  rw [← strEta a, hdata]

theorem getProtocol_ne_empty (d : String) : getProtocol d ≠ "" := by
  unfold getProtocol
  dsimp only
  split
  · decide
  · decide

theorem robotsLine_ok_ne (proto dom line u : String) (hp : proto ≠ "")
    (h : robotsLine proto dom line = some (.ok u)) : u ≠ "" := by
  unfold robotsLine at h
  by_cases h1 : strHasPre "sitemap:" (lowerStr (jsTrimStr line)) = true
  · rw [if_pos h1] at h
    cases hac : afterColon line.data with
    | none => rw [hac] at h; simp at h
    | some rest =>
      rw [hac] at h
      dsimp only at h
      by_cases h2 : jsTrimStr ⟨rest⟩ = ""
      · simp [h2] at h
      · rw [if_neg h2] at h
        by_cases h3 : (strHasPre "http://" (lowerStr (jsTrimStr ⟨rest⟩)) ||
            strHasPre "https://" (lowerStr (jsTrimStr ⟨rest⟩))) = true
        · rw [if_pos h3] at h
          simp at h
          rw [← h]
          exact h2
        · rw [if_neg h3] at h
          simp at h
          rw [← h]
          exact strAppend_ne_empty _ _ (strAppend_ne_empty _ _ hp)
  · rw [if_neg h1] at h
    simp at h

theorem robotsScan_ok_ne (proto dom : String) (hp : proto ≠ "") :
    ∀ (lines : List String) (u : String),
      robotsScan proto dom lines = .ok (some u) → u ≠ "" := by
  intro lines
  induction lines with
  | nil => intro u h; simp [robotsScan] at h
  | cons l ls ih =>
    intro u h
    unfold robotsScan at h
    cases hr : robotsLine proto dom l with
    | none => rw [hr] at h; exact ih u h
    | some r =>
      cases r with
      | error e => rw [hr] at h; simp at h
      | ok u' =>
        rw [hr] at h
        simp at h
        rw [← h]
        exact robotsLine_ok_ne proto dom l u' hp hr

theorem resolveCandidate_ne_empty (env : DiscoverEnv) (domain : String) :
    resolveCandidate env domain ≠ "" := by
  have hp := getProtocol_ne_empty domain
  have hd : getProtocol domain ++ domain ++ "/sitemap.xml" ≠ "" :=
    strAppend_ne_empty _ _ (strAppend_ne_empty _ _ hp)
  unfold resolveCandidate
  cases env.robotsResult with
  | error e => exact hd
  | ok resp =>
    dsimp only
    by_cases hst : resp.status = 200
    · rw [if_pos hst]
      cases hs : robotsScan (getProtocol domain) domain
          ((splitOnChar '\n' resp.body.data).map (fun l => (⟨l⟩ : String))) with
      | error e => exact hd
      | ok o =>
        cases o with
        | none => exact hd
        | some u => exact robotsScan_ok_ne _ _ hp _ u hs
    · rw [if_neg hst]
      exact hd

/-- Claim C10 (confirmed): `discoverSitemap` is total — every input maps
to a result (all exceptions of the robots phase and of the sitemap
fetch/parse are caught), its status is always one of
`ok`/`failed`/`unsupported` (never `unknown`), and its `url` is always
the non-empty resolved candidate: the robots.txt-derived URL when the
robots scan found one, else `{protocol}{domain}/sitemap.xml`. -/
theorem claim_C10_locator_total (env : DiscoverEnv) (domain : String) :
    ((discoverSitemap env domain).status = .ok ∨
      (discoverSitemap env domain).status = .failed ∨
      (discoverSitemap env domain).status = .unsupported) ∧
    (discoverSitemap env domain).status ≠ .unknown ∧
    (discoverSitemap env domain).url = resolveCandidate env domain ∧
    (discoverSitemap env domain).url ≠ "" := by
  have hne := resolveCandidate_ne_empty env domain
  unfold discoverSitemap
  cases henv : env.sitemapResult with
  | error msg => exact ⟨Or.inr (Or.inl rfl), by simp, rfl, hne⟩
  | ok resp =>
    dsimp only
    by_cases hst : resp.status = 200
    · rw [if_pos hst]
      cases hp : env.parseXml resp.body with
      | urlsetRoot => exact ⟨Or.inl rfl, by simp, rfl, hne⟩
      | indexRoot => exact ⟨Or.inr (Or.inr rfl), by simp, rfl, hne⟩
      | otherRoot => exact ⟨Or.inr (Or.inr rfl), by simp, rfl, hne⟩
      | throwMsg m => exact ⟨Or.inr (Or.inl rfl), by simp, rfl, hne⟩
    · rw [if_neg hst]
      exact ⟨Or.inr (Or.inl rfl), by simp, rfl, hne⟩

/-! ## Path lemmas: `scan` and `baseline` along each control-flow path -/

theorem scan_notfound (env : Env) (store : Store) (id : String)
    (h : findSite store.sites id = none) :
    scan env store id = ⟨store, [], .error "Site not found"⟩ := by
  unfold scan
  rw [h]

theorem scan_notready (env : Env) (store : Store) (id : String) (idx : Nat) (site : Site)
    (hf : findSite store.sites id = some (idx, site))
    (hr : site.baselineReady = false) :
    scan env store id = ⟨store, [], .error "Baseline not ready"⟩ := by
  unfold scan
  rw [hf]
  dsimp only
  rw [if_pos hr]

theorem scan_fetcherr (env : Env) (store : Store) (id : String) (idx : Nat) (site : Site)
    (msg : String)
    (hf : findSite store.sites id = some (idx, site))
    (hr : site.baselineReady = true)
    (hm : env.fetchResult = .error msg) :
    scan env store id =
      ⟨{ store with sites := store.sites.set idx (failSite env site msg) },
       [.fetchSitemap, .saveSites], .error msg⟩ := by
  unfold scan
  rw [hf]
  dsimp only
  rw [if_neg (by simp [hr]), hm]

theorem scan_fetchok (env : Env) (store : Store) (id : String) (idx : Nat) (site : Site)
    (urls : List String)
    (hf : findSite store.sites id = some (idx, site))
    (hr : site.baselineReady = true)
    (hm : env.fetchResult = .ok urls) :
    scan env store id = scanFetched env store idx site urls := by
  unfold scan
  rw [hf]
  dsimp only
  rw [if_neg (by simp [hr]), hm]

theorem scanFetched_nonew (env : Env) (store : Store) (idx : Nat) (site : Site)
    (urls : List String)
    (h : (diffUrls ((mapGet store.seen site.id).getD []) urls).2.2 = []) :
    scanFetched env store idx site urls =
      ⟨{ store with sites := store.sites.set idx (scanSuccessSite env site urls.length
           (diffUrls ((mapGet store.seen site.id).getD []) urls).1.length []) },
       [.fetchSitemap, .loadSeen, .saveSites],
       .ok (scanSuccessSite env site urls.length
         (diffUrls ((mapGet store.seen site.id).getD []) urls).1.length [], [])⟩ := by
  unfold scanFetched
  dsimp only
  rw [h]
  rfl

theorem scanFetched_saveerr (env : Env) (store : Store) (idx : Nat) (site : Site)
    (urls : List String) (m : String)
    (h : (diffUrls ((mapGet store.seen site.id).getD []) urls).2.2 ≠ [])
    (hs : env.saveSeenErr = some m) :
    scanFetched env store idx site urls =
      ⟨{ store with sites := store.sites.set idx (failSite env site m) },
       [.fetchSitemap, .loadSeen] ++
         (diffUrls ((mapGet store.seen site.id).getD []) urls).2.2.map
           (fun _ => Effect.fetchTitle) ++ [.saveSeen, .saveSites],
       .error m⟩ := by
  unfold scanFetched
  dsimp only
  rw [if_neg (by simpa [List.isEmpty_iff, buildItems_eq_nil] using h), hs]

theorem scanFetched_appenderr (env : Env) (store : Store) (idx : Nat) (site : Site)
    (urls : List String) (m : String)
    (h : (diffUrls ((mapGet store.seen site.id).getD []) urls).2.2 ≠ [])
    (hs : env.saveSeenErr = none)
    (ha : env.appendErr = some m) :
    scanFetched env store idx site urls =
      ⟨{ store with
         seen := mapSet store.seen site.id
           (reinsert (diffUrls ((mapGet store.seen site.id).getD []) urls).1
             (buildItems env site 0 (diffUrls ((mapGet store.seen site.id).getD []) urls).2.2))
         sites := store.sites.set idx (failSite env site m) },
       [.fetchSitemap, .loadSeen] ++
         (diffUrls ((mapGet store.seen site.id).getD []) urls).2.2.map
           (fun _ => Effect.fetchTitle) ++ [.saveSeen, .appendItems, .saveSites],
       .error m⟩ := by
  unfold scanFetched
  dsimp only
  rw [if_neg (by simpa [List.isEmpty_iff, buildItems_eq_nil] using h), hs, ha]

theorem scanFetched_success (env : Env) (store : Store) (idx : Nat) (site : Site)
    (urls : List String)
    (h : (diffUrls ((mapGet store.seen site.id).getD []) urls).2.2 ≠ [])
    (hs : env.saveSeenErr = none)
    (ha : env.appendErr = none) :
    scanFetched env store idx site urls =
      ⟨{ store with
         seen := mapSet store.seen site.id
           (reinsert (diffUrls ((mapGet store.seen site.id).getD []) urls).1
             (buildItems env site 0 (diffUrls ((mapGet store.seen site.id).getD []) urls).2.2))
         sites := store.sites.set idx (scanSuccessSite env site urls.length
           (reinsert (diffUrls ((mapGet store.seen site.id).getD []) urls).1
             (buildItems env site 0
               (diffUrls ((mapGet store.seen site.id).getD []) urls).2.2)).length
           (buildItems env site 0 (diffUrls ((mapGet store.seen site.id).getD []) urls).2.2))
         items := appendNewItems store.items
           (buildItems env site 0 (diffUrls ((mapGet store.seen site.id).getD []) urls).2.2) },
       [.fetchSitemap, .loadSeen] ++
         (diffUrls ((mapGet store.seen site.id).getD []) urls).2.2.map
           (fun _ => Effect.fetchTitle) ++ [.saveSeen, .appendItems, .saveSites],
       .ok (scanSuccessSite env site urls.length
         (reinsert (diffUrls ((mapGet store.seen site.id).getD []) urls).1
           (buildItems env site 0
             (diffUrls ((mapGet store.seen site.id).getD []) urls).2.2)).length
         (buildItems env site 0 (diffUrls ((mapGet store.seen site.id).getD []) urls).2.2),
        buildItems env site 0 (diffUrls ((mapGet store.seen site.id).getD []) urls).2.2)⟩ := by
  unfold scanFetched
  dsimp only
  rw [if_neg (by simpa [List.isEmpty_iff, buildItems_eq_nil] using h), hs, ha]

theorem baseline_notfound (env : Env) (store : Store) (id : String)
    (h : findSite store.sites id = none) :
    baseline env store id = ⟨store, [], .error "Site not found"⟩ := by
  unfold baseline
  rw [h]

theorem baseline_fetcherr (env : Env) (store : Store) (id : String) (idx : Nat) (site : Site)
    (msg : String)
    (hf : findSite store.sites id = some (idx, site))
    (hm : env.fetchResult = .error msg) :
    baseline env store id =
      ⟨{ store with sites := store.sites.set idx (failSite env site msg) },
       [.fetchSitemap, .saveSites], .error msg⟩ := by
  unfold baseline
  rw [hf]
  dsimp only
  rw [hm]

theorem baseline_saveerr (env : Env) (store : Store) (id : String) (idx : Nat) (site : Site)
    (urls : List String) (m : String)
    (hf : findSite store.sites id = some (idx, site))
    (hm : env.fetchResult = .ok urls)
    (hs : env.saveSeenErr = some m) :
    baseline env store id =
      ⟨{ store with sites := store.sites.set idx (failSite env site m) },
       [.fetchSitemap, .loadSeen, .saveSeen, .saveSites], .error m⟩ := by
  unfold baseline
  rw [hf]
  dsimp only
  rw [hm]
  dsimp only
  rw [hs]

theorem baseline_success (env : Env) (store : Store) (id : String) (idx : Nat) (site : Site)
    (urls : List String)
    (hf : findSite store.sites id = some (idx, site))
    (hm : env.fetchResult = .ok urls)
    (hs : env.saveSeenErr = none) :
    baseline env store id =
      ⟨{ store with
         seen := mapSet store.seen site.id
           (diffUrls ((mapGet store.seen site.id).getD []) urls).1
         sites := store.sites.set idx { site with
           baselineReady := true
           baselineAt := some env.now
           status := .ok
           errorMessage := ""
           seenCount := (diffUrls ((mapGet store.seen site.id).getD []) urls).1.length
           lastResult := some (successSummary env urls.length
             (diffUrls ((mapGet store.seen site.id).getD []) urls).2.1
             ((urls.map normalizeUrl).take 5)) } },
       [.fetchSitemap, .loadSeen, .saveSeen, .saveSites],
       .ok { site with
             baselineReady := true
             baselineAt := some env.now
             status := .ok
             errorMessage := ""
             seenCount := (diffUrls ((mapGet store.seen site.id).getD []) urls).1.length
             lastResult := some (successSummary env urls.length
               (diffUrls ((mapGet store.seen site.id).getD []) urls).2.1
               ((urls.map normalizeUrl).take 5)) }⟩ := by
  unfold baseline
  rw [hf]
  dsimp only
  rw [hm]
  dsimp only
  rw [hs]

/-! ## Claim C5 — scan precondition -/

/-- Claim C5 (confirmed): invoking `scan` on a site with
`baselineReady = false` fails with the precondition error `"Baseline not
ready"`, performs none of the scan's platform operations (empty effect
trace: no fetch, no seen-store read or write, no item append, and no
site-record write — so no failure summary either), and leaves the whole
store exactly as it was.  The only thing the source did before the check
is load the site list, which is how the operation receives its input. -/
theorem claim_C5_scan_precondition (env : Env) (store : Store) (id : String)
    (idx : Nat) (site : Site)
    (hf : findSite store.sites id = some (idx, site))
    (hr : site.baselineReady = false) :
    scan env store id = ⟨store, [], .error "Baseline not ready"⟩ :=
  scan_notready env store id idx site hf hr

def c5Env : Env := ⟨.ok ["http://x.com/a"], none, none, fun _ => none, fun _ => "", "T5", 0⟩

def c5Site : Site :=
  ⟨"s1", "x.com", "https://x.com/sitemap.xml", .ok, "", false, none, none, 0, 0, none, "C5"⟩

def c5Store : Store := ⟨[c5Site], [], []⟩

/-- Claim C5, witness: a concrete not-yet-baselined site. -/
theorem claim_C5_scan_precondition_witness :
    scan c5Env c5Store "s1" = ⟨c5Store, [], .error "Baseline not ready"⟩ :=
  claim_C5_scan_precondition c5Env c5Store "s1" 0 c5Site rfl rfl

/-! ## Claim C9 — frame of a successful scan with zero new URLs -/

/-- Claim C9 (confirmed): when every sitemap URL is already truthy in the
site's seen map, the scan succeeds with zero new items, the seen store
and the item store are not written (`saveSeen`/`appendNewItems` absent
from the trace, `store.seen`/`store.items` fields untouched), and the
site record is still updated: `lastScanAt := now`, `status := ok`,
`lastNewFound := 0`, and a success summary with empty `sampleUrls`
replaces `lastResult` (all inside `scanSuccessSite`). -/
theorem claim_C9_scan_no_new (env : Env) (store : Store) (id : String)
    (idx : Nat) (site : Site) (urls : List String)
    (hf : findSite store.sites id = some (idx, site))
    (hr : site.baselineReady = true)
    (hm : env.fetchResult = .ok urls)
    (hseen : ∀ u ∈ urls,
      seenHas ((mapGet store.seen site.id).getD []) (hashUrl (normalizeUrl u)) = true) :
    scan env store id =
      ⟨{ store with sites := store.sites.set idx (scanSuccessSite env site urls.length
           ((mapGet store.seen site.id).getD []).length []) },
       [.fetchSitemap, .loadSeen, .saveSites],
       .ok (scanSuccessSite env site urls.length
         ((mapGet store.seen site.id).getD []).length [], [])⟩ := by
  have hd := diffUrls_skip_all urls ((mapGet store.seen site.id).getD []) hseen
  rw [scan_fetchok env store id idx site urls hf hr hm,
      scanFetched_nonew env store idx site urls (by rw [hd]), hd]

def c9Env : Env := ⟨.ok ["http://x.com/a"], none, none, fun _ => none, fun _ => "", "T9", 3⟩

def c9Site : Site :=
  ⟨"s1", "x.com", "https://x.com/sitemap.xml", .ok, "", true, some "B9", none, 1, 0, none, "C9"⟩

def c9Store : Store :=
  ⟨[c9Site], [("s1", [(hashUrl "http://x.com/a", "http://x.com/a")])], []⟩

/-- Claim C9, witness: a scan over an already fully seen sitemap. -/
theorem claim_C9_scan_no_new_witness :
    (scan c9Env c9Store "s1").trace = [.fetchSitemap, .loadSeen, .saveSites] ∧
    (scan c9Env c9Store "s1").store.seen = c9Store.seen ∧
    (scan c9Env c9Store "s1").store.items = c9Store.items := by
  rw [claim_C9_scan_no_new c9Env c9Store "s1" 0 c9Site ["http://x.com/a"] rfl rfl rfl
    (by decide)]
  exact ⟨rfl, rfl, rfl⟩

/-! ## Claim C1 — failed scans and the seen/item stores -/

def c1Env : Env :=
  ⟨.ok ["http://x.com/g"], none, some "EIO", fun _ => none, fun _ => "", "T1", 7⟩

def c1Site : Site :=
  ⟨"s1", "x.com", "https://x.com/sitemap.xml", .ok, "", true, some "B1", none, 0, 0, none, "C1"⟩

def c1Store : Store := ⟨[c1Site], [], []⟩

/-- Claim C1, counterexample: a persistence error thrown by
`appendNewItems` happens after `saveSeen` already wrote the updated seen
map, so the scan reports failure while the seen store has changed — the
all-or-nothing guarantee does not hold for this stage. -/
theorem claim_C1_scan_failure_counterexample :
    (scan c1Env c1Store "s1").result = .error "EIO" ∧
    (scan c1Env c1Store "s1").store.seen ≠ c1Store.seen := by
  refine ⟨by decide, by decide⟩

/-- Claim C1 (amended): for every scan that fails at a stage up to and
including the seen-set write — site lookup, precondition, sitemap
fetch/parse, or the `saveSeen` write itself (i.e. any failure when the
item-store append is not the failing stage) — the seen store and the
item store are byte-for-byte unchanged and every site's `seenCount` and
`lastNewFound` are unchanged.  A failure of `appendNewItems`, which runs
after `saveSeen` succeeded, instead leaves the seen store already
updated (see the counterexample); `seenCount`/`lastNewFound` are still
unchanged because the catch handler does not touch them. -/
theorem claim_C1_scan_failure_amended (env : Env) (store : Store) (id msg : String)
    (ha : env.appendErr = none)
    (herr : (scan env store id).result = .error msg) :
    (scan env store id).store.seen = store.seen ∧
    (scan env store id).store.items = store.items ∧
    (scan env store id).store.sites.map (fun s => (s.seenCount, s.lastNewFound)) =
      store.sites.map (fun s => (s.seenCount, s.lastNewFound)) := by
  cases hfind : findSite store.sites id with
  | none =>
    rw [scan_notfound env store id hfind]
    exact ⟨rfl, rfl, rfl⟩
  | some p =>
    obtain ⟨idx, site⟩ := p
    cases hr : site.baselineReady with
    | false =>
      rw [scan_notready env store id idx site hfind hr]
      exact ⟨rfl, rfl, rfl⟩
    | true =>
      cases hm : env.fetchResult with
      | error m =>
        rw [scan_fetcherr env store id idx site m hfind hr hm]
        exact ⟨rfl, rfl, findSite_set_map _ store.sites id idx site _ hfind rfl⟩
      | ok urls =>
        rw [scan_fetchok env store id idx site urls hfind hr hm] at herr ⊢
        by_cases hnew : (diffUrls ((mapGet store.seen site.id).getD []) urls).2.2 = []
        · rw [scanFetched_nonew env store idx site urls hnew] at herr
          simp at herr
        · cases hs : env.saveSeenErr with
          | some m =>
            rw [scanFetched_saveerr env store idx site urls m hnew hs]
            exact ⟨rfl, rfl, findSite_set_map _ store.sites id idx site _ hfind rfl⟩
          | none =>
            rw [scanFetched_success env store idx site urls hnew hs ha] at herr
            simp at herr

def c1wEnv : Env := ⟨.error "ECONNREFUSED", none, none, fun _ => none, fun _ => "", "T1", 2⟩

/-- Claim C1, witness for the amended statement: a network failure leaves
both stores and the per-site counters unchanged. -/
theorem claim_C1_scan_failure_witness :
    (scan c1wEnv c1Store "s1").store.seen = c1Store.seen ∧
    (scan c1wEnv c1Store "s1").store.items = c1Store.items ∧
    (scan c1wEnv c1Store "s1").store.sites.map (fun s => (s.seenCount, s.lastNewFound)) =
      c1Store.sites.map (fun s => (s.seenCount, s.lastNewFound)) :=
  claim_C1_scan_failure_amended c1wEnv c1Store "s1" "ECONNREFUSED" rfl (by decide)

/-! ## Claim C6 — baseline run twice -/

def c6Env : Env :=
  ⟨.ok ["http://x.com/a", "http://x.com/a/"], none, none, fun _ => none, fun _ => "", "T6", 0⟩

def c6Site : Site :=
  ⟨"s1", "x.com", "https://x.com/sitemap.xml", .ok, "", false, none, none, 0, 0, none, "C6"⟩

def c6Store : Store := ⟨[c6Site], [], []⟩

/-- Claim C6, counterexample: for the two-element URL set
`{"http://x.com/a", "http://x.com/a/"}` the first baseline reports
`addedCount = 1`, not `|S| = 2`, because both URLs normalize (and hence
hash) to the same seen-set key. -/
theorem claim_C6_baseline_counterexample :
    ("http://x.com/a" : String) ≠ "http://x.com/a/" ∧
    baselineAdded (baseline c6Env c6Store "s1") = some 1 ∧
    baselineAdded (baseline c6Env c6Store "s1") ≠
      some (["http://x.com/a", "http://x.com/a/"] : List String).length := by
  refine ⟨by decide, by decide, by decide⟩

/-- Claim C6 (amended): when no two URLs of S collide after
normalization and hashing (and none normalizes to the empty string —
empty values are stored falsy and would be recounted), running baseline
twice from an empty seen-set yields `addedCount = |S|` on the first run,
then `addedCount = 0` on the second run with `seenCount` identical to
after the first run.  Without the no-collision proviso the first run
reports the number of distinct hashed normalizations instead (see the
counterexample). -/
theorem claim_C6_baseline_twice_amended (env1 env2 : Env) (store : Store) (id : String)
    (idx : Nat) (site : Site) (urls : List String)
    (hf : findSite store.sites id = some (idx, site))
    (hm1 : env1.fetchResult = .ok urls) (hs1 : env1.saveSeenErr = none)
    (hm2 : env2.fetchResult = .ok urls) (hs2 : env2.saveSeenErr = none)
    (hempty : mapGet store.seen site.id = none)
    (hnodup : (urls.map (fun u => hashUrl (normalizeUrl u))).Nodup)
    (hne : ∀ u ∈ urls, normalizeUrl u ≠ "") :
    ∃ s1 s2,
      (baseline env1 store id).result = .ok s1 ∧
      baselineAdded (baseline env1 store id) = some urls.length ∧
      (baseline env2 (baseline env1 store id).store id).result = .ok s2 ∧
      baselineAdded (baseline env2 (baseline env1 store id).store id) = some 0 ∧
      s2.seenCount = s1.seenCount := by
  have hb1 := baseline_success env1 store id idx site urls hf hm1 hs1
  have hgd : (mapGet store.seen site.id).getD [] = [] := by rw [hempty]; rfl
  rw [hgd] at hb1
  have hadd : (diffUrls [] urls).2.1 = urls.length :=
    diffUrls_count_fresh urls [] (fun u _ => rfl) hnodup
  have hsid : site.id = id := findSite_id store.sites id idx site hf
  generalize hS1 : ({ site with
      baselineReady := true
      baselineAt := some env1.now
      status := .ok
      errorMessage := ""
      seenCount := (diffUrls [] urls).1.length
      lastResult := some (successSummary env1 urls.length (diffUrls [] urls).2.1
        ((urls.map normalizeUrl).take 5)) } : Site) = S1 at hb1
  have hS1id : S1.id = id := by rw [← hS1]; exact hsid
  have hS1seen : S1.seenCount = (diffUrls [] urls).1.length := by rw [← hS1]
  have hS1res : S1.lastResult = some (successSummary env1 urls.length
      (diffUrls [] urls).2.1 ((urls.map normalizeUrl).take 5)) := by rw [← hS1]
  have hstore1 : (baseline env1 store id).store =
      { store with
        seen := mapSet store.seen site.id (diffUrls [] urls).1
        sites := store.sites.set idx S1 } := by rw [hb1]
  have hf2 : findSite (baseline env1 store id).store.sites id = some (idx, S1) := by
    rw [hstore1]
    exact findSite_set store.sites id idx site S1 hf hS1id
  have hb2 := baseline_success env2 (baseline env1 store id).store id idx S1 urls hf2 hm2 hs2
  have hgd2 : (mapGet (baseline env1 store id).store.seen S1.id).getD [] =
      (diffUrls [] urls).1 := by
    rw [hstore1]
    dsimp only
    rw [hS1id, ← hsid, mapGet_mapSet_self]
    rfl
  rw [hgd2] at hb2
  have hskip : diffUrls (diffUrls [] urls).1 urls = ((diffUrls [] urls).1, 0, []) :=
    diffUrls_skip_all urls _ (diffUrls_all_present urls [] hne)
  rw [hskip] at hb2
  dsimp only at hb2
  generalize hS2 : ({ S1 with
      baselineReady := true
      baselineAt := some env2.now
      status := .ok
      errorMessage := ""
      seenCount := (diffUrls [] urls).1.length
      lastResult := some (successSummary env2 urls.length 0
        ((urls.map normalizeUrl).take 5)) } : Site) = S2 at hb2
  have hS2seen : S2.seenCount = (diffUrls [] urls).1.length := by rw [← hS2]
  have hS2res : S2.lastResult = some (successSummary env2 urls.length 0
      ((urls.map normalizeUrl).take 5)) := by rw [← hS2]
  refine ⟨S1, S2, ?_, ?_, ?_, ?_, ?_⟩
  · rw [hb1]
  · rw [hb1]
    dsimp only [baselineAdded]
    rw [hS1res]
    dsimp only [successSummary]
    rw [hadd]
  · rw [hb2]
  · rw [hb2]
    dsimp only [baselineAdded]
    rw [hS2res]
    dsimp only [successSummary]
  · rw [hS1seen, hS2seen]

def c6wEnv : Env :=
  ⟨.ok ["http://x.com/a", "http://x.com/b"], none, none, fun _ => none, fun _ => "", "T6", 0⟩

/-- Claim C6, witness for the amended statement: two collision-free URLs. -/
theorem claim_C6_baseline_twice_witness :
    ∃ s1 s2,
      (baseline c6wEnv c6Store "s1").result = .ok s1 ∧
      baselineAdded (baseline c6wEnv c6Store "s1") =
        some (["http://x.com/a", "http://x.com/b"] : List String).length ∧
      (baseline c6wEnv (baseline c6wEnv c6Store "s1").store "s1").result = .ok s2 ∧
      baselineAdded (baseline c6wEnv (baseline c6wEnv c6Store "s1").store "s1") = some 0 ∧
      s2.seenCount = s1.seenCount :=
  claim_C6_baseline_twice_amended c6wEnv c6wEnv c6Store "s1" 0 c6Site
    ["http://x.com/a", "http://x.com/b"] rfl rfl rfl rfl rfl rfl (by decide) (by decide)

/-! ## Claim C7 — seen-set monotonicity and no-repeat -/

theorem scanSuccessSite_id (env : Env) (site : Site) (p l : Nat) (items : List NewItem) :
    (scanSuccessSite env site p l items).id = site.id := rfl

theorem scanSuccessSite_ready (env : Env) (site : Site) (p l : Nat) (items : List NewItem) :
    (scanSuccessSite env site p l items).baselineReady = site.baselineReady := rfl

/-- The seen-store write of a scan preserves truthy entries. -/
theorem seenUpdate_preserve (env : Env) (store : Store) (site : Site) (urls : List String)
    (sid k v : String) (hv : v ≠ "")
    (hget : mapGet ((mapGet store.seen sid).getD []) k = some v) :
    mapGet ((mapGet (mapSet store.seen site.id
      (reinsert (diffUrls ((mapGet store.seen site.id).getD []) urls).1
        (buildItems env site 0
          (diffUrls ((mapGet store.seen site.id).getD []) urls).2.2))) sid).getD []) k =
      some v := by
  by_cases hsid : site.id = sid
  · rw [← hsid] at hget ⊢
    rw [mapGet_mapSet_self]
    show mapGet (reinsert (diffUrls ((mapGet store.seen site.id).getD []) urls).1
      (buildItems env site 0 (diffUrls ((mapGet store.seen site.id).getD []) urls).2.2)) k =
      some v
    have hpres := diffUrls_preserve urls ((mapGet store.seen site.id).getD []) k v hv hget
    refine reinsert_preserve _ _ _ _ hpres.1 ?_
    intro it hit
    have hmem : it.url ∈ (diffUrls ((mapGet store.seen site.id).getD []) urls).2.2 := by
      have := List.mem_map_of_mem (fun it : NewItem => it.url) hit
      rwa [buildItems_map_url] at this
    exact hpres.2 it.url hmem
  · rw [mapGet_mapSet_ne _ _ _ _ hsid]
    exact hget

/-- The seen-store write of a scan never removes a key. -/
theorem seenUpdate_isSome (env : Env) (store : Store) (site : Site) (urls : List String)
    (sid k : String)
    (hget : (mapGet ((mapGet store.seen sid).getD []) k).isSome = true) :
    (mapGet ((mapGet (mapSet store.seen site.id
      (reinsert (diffUrls ((mapGet store.seen site.id).getD []) urls).1
        (buildItems env site 0
          (diffUrls ((mapGet store.seen site.id).getD []) urls).2.2))) sid).getD []) k).isSome
      = true := by
  by_cases hsid : site.id = sid
  · rw [← hsid] at hget ⊢
    rw [mapGet_mapSet_self]
    show (mapGet (reinsert (diffUrls ((mapGet store.seen site.id).getD []) urls).1
      (buildItems env site 0
        (diffUrls ((mapGet store.seen site.id).getD []) urls).2.2)) k).isSome = true
    exact reinsert_isSome _ _ _ (diffUrls_isSome urls _ k hget)
  · rw [mapGet_mapSet_ne _ _ _ _ hsid]
    exact hget

/-- The seen-store write of a baseline preserves truthy entries. -/
theorem baselineSeen_preserve (store : Store) (site : Site) (urls : List String)
    (sid k v : String) (hv : v ≠ "")
    (hget : mapGet ((mapGet store.seen sid).getD []) k = some v) :
    mapGet ((mapGet (mapSet store.seen site.id
      (diffUrls ((mapGet store.seen site.id).getD []) urls).1) sid).getD []) k = some v := by
  by_cases hsid : site.id = sid
  · rw [← hsid] at hget ⊢
    rw [mapGet_mapSet_self]
    show mapGet (diffUrls ((mapGet store.seen site.id).getD []) urls).1 k = some v
    exact (diffUrls_preserve urls _ k v hv hget).1
  · rw [mapGet_mapSet_ne _ _ _ _ hsid]
    exact hget

/-- The seen-store write of a baseline never removes a key. -/
theorem baselineSeen_isSome (store : Store) (site : Site) (urls : List String)
    (sid k : String)
    (hget : (mapGet ((mapGet store.seen sid).getD []) k).isSome = true) :
    (mapGet ((mapGet (mapSet store.seen site.id
      (diffUrls ((mapGet store.seen site.id).getD []) urls).1) sid).getD []) k).isSome
      = true := by
  by_cases hsid : site.id = sid
  · rw [← hsid] at hget ⊢
    rw [mapGet_mapSet_self]
    show (mapGet (diffUrls ((mapGet store.seen site.id).getD []) urls).1 k).isSome = true
    exact diffUrls_isSome urls _ k hget
  · rw [mapGet_mapSet_ne _ _ _ _ hsid]
    exact hget

def c7Env : Env := ⟨.ok ["/"], none, none, fun _ => none, fun _ => "", "T7", 0⟩

def c7Site : Site :=
  ⟨"s1", "x.com", "https://x.com/sitemap.xml", .ok, "", true, some "B7", none, 0, 0, none, "C7"⟩

def c7Store : Store := ⟨[c7Site], [], []⟩

/-- Claim C7, counterexample: a sitemap entry `"/"` normalizes to the
empty string, whose stored seen-set value is falsy for the JS truthiness
check, so two consecutive scans of the unchanged sitemap both report it
as new — a URL is reported as new more than once. -/
theorem claim_C7_seen_monotone_counterexample :
    (scanItems (scan c7Env c7Store "s1")).map (fun it => it.url) = [""] ∧
    (scanItems (scan c7Env (scan c7Env c7Store "s1").store "s1")).map
      (fun it => it.url) = [""] := by
  refine ⟨by decide, by decide⟩

/-- Claim C7 (amended): the per-site seen store grows monotonically under
both `scan` and `baseline` — a key, once present, is never removed, and
an entry with a non-empty URL value is never altered (parts 1–4, for
every environment, store, and site id, on every control-flow path
including failures).  Consequently a URL with non-empty normalization is
never reported as new twice: after any successful scan over `urls` whose
normalizations are all non-empty, a second scan of the same sitemap
reports no new items at all (part 5).  For a URL normalizing to the
empty string the no-repeat part fails (see the counterexample): its
stored value is falsy, so it is re-reported on every scan. -/
theorem claim_C7_seen_monotone :
    (∀ (env : Env) (store : Store) (id sid k v : String), v ≠ "" →
      mapGet ((mapGet store.seen sid).getD []) k = some v →
      mapGet ((mapGet (scan env store id).store.seen sid).getD []) k = some v) ∧
    (∀ (env : Env) (store : Store) (id sid k v : String), v ≠ "" →
      mapGet ((mapGet store.seen sid).getD []) k = some v →
      mapGet ((mapGet (baseline env store id).store.seen sid).getD []) k = some v) ∧
    (∀ (env : Env) (store : Store) (id sid k : String),
      (mapGet ((mapGet store.seen sid).getD []) k).isSome = true →
      (mapGet ((mapGet (scan env store id).store.seen sid).getD []) k).isSome = true) ∧
    (∀ (env : Env) (store : Store) (id sid k : String),
      (mapGet ((mapGet store.seen sid).getD []) k).isSome = true →
      (mapGet ((mapGet (baseline env store id).store.seen sid).getD []) k).isSome = true) ∧
    (∀ (env1 env2 : Env) (store : Store) (id : String) (urls : List String)
        (s1 : Site) (items1 : List NewItem),
      env1.fetchResult = .ok urls → env2.fetchResult = .ok urls →
      (∀ u ∈ urls, normalizeUrl u ≠ "") →
      (scan env1 store id).result = .ok (s1, items1) →
      ∃ s2, (scan env2 (scan env1 store id).store id).result = .ok (s2, [])) := by
  refine ⟨?_, ?_, ?_, ?_, ?_⟩
  · intro env store id sid k v hv hget
    cases hfind : findSite store.sites id with
    | none => rw [scan_notfound env store id hfind]; exact hget
    | some p =>
      obtain ⟨idx, site⟩ := p
      cases hr : site.baselineReady with
      | false => rw [scan_notready env store id idx site hfind hr]; exact hget
      | true =>
        cases hm : env.fetchResult with
        | error m => rw [scan_fetcherr env store id idx site m hfind hr hm]; exact hget
        | ok urls =>
          rw [scan_fetchok env store id idx site urls hfind hr hm]
          by_cases hnew : (diffUrls ((mapGet store.seen site.id).getD []) urls).2.2 = []
          · rw [scanFetched_nonew env store idx site urls hnew]; exact hget
          · cases hs : env.saveSeenErr with
            | some m => rw [scanFetched_saveerr env store idx site urls m hnew hs]; exact hget
            | none =>
              cases ha : env.appendErr with
              | some m =>
                rw [scanFetched_appenderr env store idx site urls m hnew hs ha]
                exact seenUpdate_preserve env store site urls sid k v hv hget
              | none =>
                rw [scanFetched_success env store idx site urls hnew hs ha]
                exact seenUpdate_preserve env store site urls sid k v hv hget
  · intro env store id sid k v hv hget
    cases hfind : findSite store.sites id with
    | none => rw [baseline_notfound env store id hfind]; exact hget
    | some p =>
      obtain ⟨idx, site⟩ := p
      cases hm : env.fetchResult with
      | error m => rw [baseline_fetcherr env store id idx site m hfind hm]; exact hget
      | ok urls =>
        cases hs : env.saveSeenErr with
        | some m => rw [baseline_saveerr env store id idx site urls m hfind hm hs]; exact hget
        | none =>
          rw [baseline_success env store id idx site urls hfind hm hs]
          exact baselineSeen_preserve store site urls sid k v hv hget
  · intro env store id sid k hget
    cases hfind : findSite store.sites id with
    | none => rw [scan_notfound env store id hfind]; exact hget
    | some p =>
      obtain ⟨idx, site⟩ := p
      cases hr : site.baselineReady with
      | false => rw [scan_notready env store id idx site hfind hr]; exact hget
      | true =>
        cases hm : env.fetchResult with
        | error m => rw [scan_fetcherr env store id idx site m hfind hr hm]; exact hget
        | ok urls =>
          rw [scan_fetchok env store id idx site urls hfind hr hm]
          by_cases hnew : (diffUrls ((mapGet store.seen site.id).getD []) urls).2.2 = []
          · rw [scanFetched_nonew env store idx site urls hnew]; exact hget
          · cases hs : env.saveSeenErr with
            | some m => rw [scanFetched_saveerr env store idx site urls m hnew hs]; exact hget
            | none =>
              cases ha : env.appendErr with
              | some m =>
                rw [scanFetched_appenderr env store idx site urls m hnew hs ha]
                exact seenUpdate_isSome env store site urls sid k hget
              | none =>
                rw [scanFetched_success env store idx site urls hnew hs ha]
                exact seenUpdate_isSome env store site urls sid k hget
  · intro env store id sid k hget
    cases hfind : findSite store.sites id with
    | none => rw [baseline_notfound env store id hfind]; exact hget
    | some p =>
      obtain ⟨idx, site⟩ := p
      cases hm : env.fetchResult with
      | error m => rw [baseline_fetcherr env store id idx site m hfind hm]; exact hget
      | ok urls =>
        cases hs : env.saveSeenErr with
        | some m => rw [baseline_saveerr env store id idx site urls m hfind hm hs]; exact hget
        | none =>
          rw [baseline_success env store id idx site urls hfind hm hs]
          exact baselineSeen_isSome store site urls sid k hget
  · intro env1 env2 store id urls s1 items1 hm1 hm2 hne hok
    cases hfind : findSite store.sites id with
    | none => rw [scan_notfound env1 store id hfind] at hok; simp at hok
    | some p =>
      obtain ⟨idx, site⟩ := p
      cases hr : site.baselineReady with
      | false => rw [scan_notready env1 store id idx site hfind hr] at hok; simp at hok
      | true =>
        have hsid : site.id = id := findSite_id store.sites id idx site hfind
        rw [scan_fetchok env1 store id idx site urls hfind hr hm1] at hok ⊢
        by_cases hnew : (diffUrls ((mapGet store.seen site.id).getD []) urls).2.2 = []
        · rw [scanFetched_nonew env1 store idx site urls hnew] at hok ⊢
          dsimp only
          rw [scan_fetchok env2 _ id idx _ urls
            (findSite_set store.sites id idx site _ hfind
              (by rw [scanSuccessSite_id]; exact hsid))
            (by rw [scanSuccessSite_ready]; exact hr) hm2]
          rw [scanFetched_nonew env2 _ idx _ urls
            (by dsimp only [scanSuccessSite]
                rw [diffUrls_skip_all urls _ (diffUrls_new_nil urls _ hnew)])]
          exact ⟨_, rfl⟩
        · cases hs1 : env1.saveSeenErr with
          | some m =>
            rw [scanFetched_saveerr env1 store idx site urls m hnew hs1] at hok
            simp at hok
          | none =>
            cases ha1 : env1.appendErr with
            | some m =>
              rw [scanFetched_appenderr env1 store idx site urls m hnew hs1 ha1] at hok
              simp at hok
            | none =>
              have hallfinal : ∀ u ∈ urls,
                  seenHas (reinsert (diffUrls ((mapGet store.seen site.id).getD []) urls).1
                    (buildItems env1 site 0
                      (diffUrls ((mapGet store.seen site.id).getD []) urls).2.2))
                    (hashUrl (normalizeUrl u)) = true := by
                intro u hu
                refine reinsert_seenHas _ _ _
                  (diffUrls_all_present urls _ hne u hu) ?_
                intro it hit
                have hmem : it.url ∈
                    (diffUrls ((mapGet store.seen site.id).getD []) urls).2.2 := by
                  have := List.mem_map_of_mem (fun it : NewItem => it.url) hit
                  rwa [buildItems_map_url] at this
                obtain ⟨raw, hraw, he⟩ := diffUrls_new_sub urls _ it.url hmem
                rw [he]
                exact hne raw hraw
              rw [scanFetched_success env1 store idx site urls hnew hs1 ha1] at hok ⊢
              dsimp only
              rw [scan_fetchok env2 _ id idx _ urls
                (findSite_set store.sites id idx site _ hfind
                  (by rw [scanSuccessSite_id]; exact hsid))
                (by rw [scanSuccessSite_ready]; exact hr) hm2]
              rw [scanFetched_nonew env2 _ idx _ urls
                (by dsimp only [scanSuccessSite]
                    rw [mapGet_mapSet_self, Option.getD_some]
                    rw [diffUrls_skip_all urls _ hallfinal])]
              exact ⟨_, rfl⟩

def c7wEnv : Env := ⟨.ok [], none, none, fun _ => none, fun _ => "", "T7", 0⟩

def c7wStore : Store := ⟨[c7Site], [("s1", [("k1", "u1")])], []⟩

/-- Claim C7, witness: a stored entry survives a scan, and a second scan
over an already seen (empty) sitemap reports nothing. -/
theorem claim_C7_seen_monotone_witness :
    mapGet ((mapGet (scan c7wEnv c7wStore "s1").store.seen "s1").getD []) "k1" = some "u1" ∧
    ∃ s2, (scan c7wEnv (scan c7wEnv c7wStore "s1").store "s1").result = .ok (s2, []) :=
  ⟨claim_C7_seen_monotone.1 c7wEnv c7wStore "s1" "s1" "k1" "u1" (by decide) (by decide),
   claim_C7_seen_monotone.2.2.2.2 c7wEnv c7wEnv c7wStore "s1" []
     (scanSuccessSite c7wEnv c7Site 0 1 []) [] rfl rfl (by simp) (by decide)⟩

/-! ## Claim C8 — one NewItem per new URL, pending iff game -/

def c8Env : Env := ⟨.ok ["/", "#"], none, none, fun _ => none, fun _ => "", "T8", 0⟩

def c8Site : Site :=
  ⟨"s1", "x.com", "https://x.com/sitemap.xml", .ok, "", true, some "B8", none, 0, 0, none, "C8"⟩

def c8Store : Store := ⟨[c8Site], [], []⟩

/-- Claim C8, counterexample: the sitemap entries `"/"` and `"#"` both
normalize to the empty string; its stored seen value is falsy, so the
same scan reports the URL `""` as new twice and builds two `NewItem`s
for it — "exactly one NewItem per new URL" fails. -/
theorem claim_C8_items_counterexample :
    (scanItems (scan c8Env c8Store "s1")).map (fun it => it.url) = ["", ""] ∧
    ((scanItems (scan c8Env c8Store "s1")).filter (fun it => it.url = "")).length = 2 := by
  refine ⟨by decide, by decide⟩

/-- Claim C8 (amended): every `NewItem` built by a successful scan has
`reviewStatus = pending` if and only if its `urlType` (from
`classifyUrl`) is `game`, and `not_game` for every other classification;
and among the built items the URLs with non-empty normalization are
pairwise distinct (exactly one item per such new URL).  A URL
normalizing to the empty string can yield several items in one scan (see
the counterexample). -/
theorem claim_C8_items_amended (env : Env) (store : Store) (id : String)
    (s' : Site) (items : List NewItem)
    (hok : (scan env store id).result = .ok (s', items)) :
    (∀ it ∈ items, (it.reviewStatus = .pending ↔ it.urlType = .game) ∧
      (it.urlType ≠ .game → it.reviewStatus = .not_game)) ∧
    ((items.map (fun it => it.url)).filter (fun u => u ≠ "")).Nodup := by
  cases hfind : findSite store.sites id with
  | none => rw [scan_notfound env store id hfind] at hok; simp at hok
  | some p =>
    obtain ⟨idx, site⟩ := p
    cases hr : site.baselineReady with
    | false => rw [scan_notready env store id idx site hfind hr] at hok; simp at hok
    | true =>
      cases hm : env.fetchResult with
      | error m =>
        rw [scan_fetcherr env store id idx site m hfind hr hm] at hok
        simp at hok
      | ok urls =>
        rw [scan_fetchok env store id idx site urls hfind hr hm] at hok
        by_cases hnew : (diffUrls ((mapGet store.seen site.id).getD []) urls).2.2 = []
        · rw [scanFetched_nonew env store idx site urls hnew] at hok
          dsimp only at hok
          have hitems : items = [] := ((Prod.mk.injEq _ _ _ _).mp (Except.ok.inj hok)).2.symm
          subst hitems
          simp
        · cases hs : env.saveSeenErr with
          | some m =>
            rw [scanFetched_saveerr env store idx site urls m hnew hs] at hok
            simp at hok
          | none =>
            cases ha : env.appendErr with
            | some m =>
              rw [scanFetched_appenderr env store idx site urls m hnew hs ha] at hok
              simp at hok
            | none =>
              rw [scanFetched_success env store idx site urls hnew hs ha] at hok
              dsimp only at hok
              have hitems : items = buildItems env site 0
                  (diffUrls ((mapGet store.seen site.id).getD []) urls).2.2 :=
                ((Prod.mk.injEq _ _ _ _).mp (Except.ok.inj hok)).2.symm
              subst hitems
              refine ⟨buildItems_review env site 0 _, ?_⟩
              rw [buildItems_map_url]
              exact diffUrls_new_nodup urls _

def c8wEnv : Env := ⟨.ok ["http://x.com/g"], none, none, fun _ => none, fun _ => "", "T8", 0⟩

/-- The single item the witness scan builds. -/
def c8wItem : NewItem :=
  ⟨"new_", "s1", "x.com", "http://x.com/g", "g", "g", .pending, .game, none, "T8",
   "https://x.com/sitemap.xml"⟩

/-- The site record after the witness scan. -/
def c8wSiteAfter : Site :=
  { c8Site with
    lastScanAt := some "T8"
    status := .ok
    seenCount := 1
    lastNewFound := 1
    lastResult := some ⟨.success, 1, 1, 0, none, ["http://x.com/g"]⟩ }

/-- Claim C8, witness: a scan discovering one game URL builds one pending
game item. -/
theorem claim_C8_items_witness :
    (∀ it ∈ [c8wItem],
      (it.reviewStatus = .pending ↔ it.urlType = .game) ∧
        (it.urlType ≠ .game → it.reviewStatus = .not_game)) ∧
    (([c8wItem].map (fun it => it.url)).filter (fun u => u ≠ "")).Nodup :=
  claim_C8_items_amended c8wEnv c8Store "s1" c8wSiteAfter [c8wItem] (by decide)

end GSM
